import Mathlib

/-!
Verification of the natural-language specification of the hypex5 backend
(Express routes for products, product variations and site settings, all
persisted through an external managed database + object storage service).

The JavaScript handlers are shallowly embedded as pure Lean functions.
Every interaction with the external service (database insert / select /
update / delete, storage upload, public-URL and signed-URL generation) is
passed in as an explicit oracle argument and recorded in a trace of
`ExtCall`s, so the theorems can speak both about the JSON response a
handler produces and about the sequence of external calls it makes.
Request-body values arriving through multipart parsing are modelled after
parsing (numeric fields as integers, absent fields as `none`).
-/

namespace Hypex

/-- JS truthiness of a possibly-absent string value: `undefined` / `null`
and the empty string are falsy, every other string is truthy. -/
def optTruthy : Option String → Bool
  | some s => s ≠ ""
  | none => false

/-- JS `a || b` on possibly-absent string values. -/
def jsOr (a b : Option String) : Option String :=
  if optTruthy a then a else b

/-- JS `a || d` with a string literal default (`req.query.sort` with default `newest`). -/
def jsGetD (a : Option String) (d : String) : String :=
  match a with
  | some s => if s = "" then d else s
  | none => d

/-- JS `x || null` applied to a possibly-absent string field
(`type: type || null`). -/
def orNull (s : Option String) : Option String :=
  if optTruthy s then s else none

/-- Character-list substring search backing the JS `includes` checks and
the unanchored regex tests (string primitives are modelled over the
character list so that concrete runs compute). -/
def containsSubList : List Char → List Char → Bool
  | [], pat => pat.isEmpty
  | a :: rest, pat => pat.isPrefixOf (a :: rest) || containsSubList rest pat

/-- JS `String.prototype.includes` / unanchored regex test. -/
def containsSub (s pat : String) : Bool :=
  containsSubList s.data pat.data

/-- Split a character list at every occurrence of a separator character
(JS `String.prototype.split` with a one-character separator). -/
def splitChar (c : Char) : List Char → List (List Char)
  | [] => [[]]
  | x :: xs =>
    if x = c then [] :: splitChar c xs
    else
      match splitChar c xs with
      | [] => [[x]]
      | h :: t => (x :: h) :: t

/-- JS `String.prototype.trim`. -/
def strTrim (s : String) : String :=
  String.mk (((s.data.dropWhile Char.isWhitespace).reverse.dropWhile
    Char.isWhitespace).reverse)

/-- JS `String.prototype.toLowerCase`. -/
def strToLower (s : String) : String :=
  String.mk (s.data.map Char.toLower)

/-- The regex `/^(http|https):\/\//` of `makeAccessibleUrl`. -/
def isHttpUrl (s : String) : Bool :=
  "http://".data.isPrefixOf s.data || "https://".data.isPrefixOf s.data

/-- The kind of a database operation issued through the query builder. -/
inductive DbOp where
  | insert
  | select
  | update
  | delete
deriving DecidableEq

/-- One call against the external managed database / storage service. -/
inductive ExtCall where
  | db (op : DbOp) (table : String)
  | stUpload (key : String)
  | stPublicUrl (key : String)
  | stSignedUrl (key : String)
deriving DecidableEq

/-- An error value returned by the external service (`error.message`,
`error.code`, `error.statusCode`). -/
structure DbErr where
  message : String
  code : String := ""
  statusCode : String := ""
deriving DecidableEq

/-- The storage-error test of the upload loops: status 403 / 500, or a
message mentioning row-level security, policies or an internal error. -/
def isRlsError (e : DbErr) : Bool :=
  e.statusCode = "403" || e.statusCode = "500" ||
  containsSub e.message "row-level security" ||
  containsSub e.message "policy" ||
  containsSub e.message "Internal Server Error"

/-- The no-rows test of `GET /api/products/:id`: codes PGRST116 / PGRST117
or a message matching `/No rows/`. -/
def isNoRowsErr (e : DbErr) : Bool :=
  e.code = "PGRST116" || e.code = "PGRST117" || containsSub e.message "No rows"

/-- The missing-table test of `GET /api/site-settings`. -/
def isTableMissingErr (e : DbErr) : Bool :=
  e.code = "42P01" || e.code = "PGRST116" ||
  containsSub e.message "does not exist" ||
  containsSub e.message "relation" ||
  containsSub e.message "não existe"

/-- Result shape of `storage.from(product_images).getPublicUrl(key)`:
`data.publicUrl` on the current client, `publicURL` on the legacy shape. -/
structure PubUrlResp where
  dataPublicUrl : Option String
  publicURL : Option String
deriving DecidableEq

/-- Oracle for the external storage service: public-URL generation and
signed-URL generation per object key. -/
structure StorageOracle where
  pub : String → PubUrlResp
  signed : String → Except DbErr (Option String)

/-- JS `pub?.data?.publicUrl || pub?.publicURL || null`. -/
def pubFallback (r : PubUrlResp) : Option String :=
  jsOr r.dataPublicUrl (jsOr r.publicURL none)

/-- Embedding of `makeAccessibleUrl` (products controller): empty keys give
`null`, keys that already are http(s) URLs are returned unchanged, otherwise
the public URL is tried first and the signed URL is requested only when the
public-URL call yields no URL. Returns the resulting URL (or `null`) and
the trace of storage calls made. -/
def makeAccessibleUrl (o : StorageOracle) (key : String) :
    Option String × List ExtCall :=
  if key = "" then (none, [])
  else if isHttpUrl key then (some key, [])
  else
    let pub := o.pub key
    if optTruthy pub.dataPublicUrl then (pub.dataPublicUrl, [ExtCall.stPublicUrl key])
    else if optTruthy pub.publicURL then (pub.publicURL, [ExtCall.stPublicUrl key])
    else
      match o.signed key with
      | Except.error _ =>
        (pubFallback pub, [ExtCall.stPublicUrl key, ExtCall.stSignedUrl key])
      | Except.ok s =>
        if optTruthy s then (s, [ExtCall.stPublicUrl key, ExtCall.stSignedUrl key])
        else (pubFallback pub, [ExtCall.stPublicUrl key, ExtCall.stSignedUrl key])

/-- Embedding of the per-key lambda of `variationWithAccessibleImages`
(both controllers): only the public-URL call is made, with no signed-URL
fallback at all. -/
def variationImageUrl (o : StorageOracle) (key : String) :
    Option String × List ExtCall :=
  let pub := o.pub key
  if optTruthy pub.dataPublicUrl then (pub.dataPublicUrl, [ExtCall.stPublicUrl key])
  else if optTruthy pub.publicURL then (pub.publicURL, [ExtCall.stPublicUrl key])
  else (none, [ExtCall.stPublicUrl key])

/-- A product-variation row / response object. `image` is the singular
image field; `images` holds storage keys in the database and URLs in a
response. -/
structure Variation where
  id : String
  product_id : String
  name : String
  color : Option String
  size : Option String
  price : Int
  stock : Int
  images : List String
  is_active : Bool
  image : Option String
deriving DecidableEq

/-- A product row / response object. `variations` is only ever set on the
single-product response; database rows carry `none`. -/
structure Product where
  id : String
  name : String
  description : Option String
  price : Int
  stock : Int
  type : Option String
  color : Option String
  brand : Option String
  sizes : List String
  images : List String
  is_active : Bool
  discount : Int
  created_at : Nat
  image : Option String
  variations : Option (List Variation)
deriving DecidableEq

/-- JS `urls.filter(Boolean)`: drop `null` results and empty strings. -/
def filterTruthy (l : List (Option String)) : List String :=
  l.filterMap (fun o =>
    match o with
    | some s => if s = "" then none else some s
    | none => none)

/-- Map a URL generator over the stored image keys, null-filter the
results, and collect the storage calls made. -/
def convertImages (mk : String → Option String × List ExtCall)
    (keys : List String) : List String × List ExtCall :=
  let results := keys.map mk
  (filterTruthy (results.map Prod.fst), (results.map Prod.snd).flatten)

/-- Embedding of `productWithAccessibleImages` without the optional
variations lookup: replace stored keys by accessible URLs, and set the
singular `image` field to the first surviving URL or `null`. -/
def productWithAccessibleImages (o : StorageOracle) (p : Product) :
    Product × List ExtCall :=
  let r :=
    if p.images.isEmpty then ([], [])
    else convertImages (makeAccessibleUrl o) p.images
  ({ p with images := r.fst, image := r.fst.head? }, r.snd)

/-- Embedding of `variationWithAccessibleImages` from the products
controller, which does set the singular `image` field. -/
def variationWithAccessibleImagesP (o : StorageOracle) (v : Variation) :
    Variation × List ExtCall :=
  let r :=
    if v.images.isEmpty then ([], [])
    else convertImages (variationImageUrl o) v.images
  ({ v with images := r.fst, image := r.fst.head? }, r.snd)

/-- Embedding of `variationWithAccessibleImages` from the variations
controller, which filters the images but never sets the singular `image`
field: the value of the row itself is passed through unchanged. -/
def variationWithAccessibleImagesV (o : StorageOracle) (v : Variation) :
    Variation × List ExtCall :=
  let r :=
    if v.images.isEmpty then ([], [])
    else convertImages (variationImageUrl o) v.images
  ({ v with images := r.fst }, r.snd)

/-- Convert a list of variation rows for the single-product response. -/
def convertVariations (o : StorageOracle) (vs : List Variation) :
    List Variation × List ExtCall :=
  let rs := vs.map (variationWithAccessibleImagesP o)
  (rs.map Prod.fst, (rs.map Prod.snd).flatten)

/-- Embedding of `productWithAccessibleImages(product, true)`: convert the
images of the product itself, then select its active variations and convert each;
on a select error the `variations` field is left unset. -/
def productWithVariationsConv (o : StorageOracle)
    (varRes : Except DbErr (List Variation)) (p : Product) :
    Product × List ExtCall :=
  let r1 := productWithAccessibleImages o p
  match varRes with
  | Except.error _ =>
    (r1.fst, r1.snd ++ [ExtCall.db DbOp.select "product_variations"])
  | Except.ok vs =>
    let r2 := convertVariations o vs
    ({ r1.fst with variations := some r2.fst },
      r1.snd ++ [ExtCall.db DbOp.select "product_variations"] ++ r2.snd)

/-- The JWT payload an optionally-authenticated request carries. -/
structure UserPayload where
  id : String
  role : String
deriving DecidableEq

/-- `req.user && req.user.role === admin`. -/
def isAdminOf : Option UserPayload → Bool
  | some u => u.role = "admin"
  | none => false

/-- A predicate clause added to the query builder. -/
inductive Clause where
  | eqB (col : String) (b : Bool)
  | eqS (col : String) (v : String)
  | ilike (col : String) (pat : String)
  | inList (col : String) (vs : List String)
  | containsArr (col : String) (vs : List String)
  | gte (col : String) (v : Int)
  | gt (col : String) (v : Int)
  | lte (col : String) (v : Int)
deriving DecidableEq

/-- An ordering clause added to the query builder. -/
inductive OrderClause where
  | order (col : String) (ascending : Bool)
deriving DecidableEq

/-- The query parameters of `GET /api/products`; absent parameters are
`none`. -/
structure ListQuery where
  search : Option String := none
  brand : Option String := none
  brands : Option String := none
  types : Option String := none
  categories : Option String := none
  sizes : Option String := none
  colors : Option String := none
  priceRange : Option String := none
  discountRange : Option String := none
  sort : Option String := none
deriving DecidableEq

/-- JS split on commas, dropping blank entries after trimming. -/
def splitCsv (s : String) : List String :=
  ((splitChar ',' s.data).map String.mk).filter (fun b => strTrim b ≠ "")

/-- Search filter: `query.ilike(name, %search%)` when `search` is truthy. -/
def searchClauses (q : ListQuery) : List Clause :=
  match q.search with
  | some s => if s = "" then [] else [Clause.ilike "name" ("%" ++ s ++ "%")]
  | none => []

/-- Single-brand filter. -/
def brandClauses (q : ListQuery) : List Clause :=
  match q.brand with
  | some s => if s = "" then [] else [Clause.eqS "brand" s]
  | none => []

/-- Multi-brand filter: comma-separated, blanks dropped, clause only when
at least one brand survives. -/
def brandsClauses (q : ListQuery) : List Clause :=
  match q.brands with
  | some s =>
    if s = "" then []
    else
      let a := splitCsv s
      if a.isEmpty then [] else [Clause.inList "brand" a]
  | none => []

/-- Types filter. -/
def typesClauses (q : ListQuery) : List Clause :=
  match q.types with
  | some s =>
    if s = "" then []
    else
      let a := splitCsv s
      if a.isEmpty then [] else [Clause.inList "type" a]
  | none => []

/-- The category-to-types table of `GET /api/products`. -/
def categoryTypeMap (c : String) : List String :=
  if c = "roupas" then
    ["camisa", "moleton", "vestido", "calca", "calca-normal", "calca-jogador",
     "bermuda-jeans", "bermuda-jogador", "bermuda-tectel", "bermuda-elastano",
     "blusa-times", "conjunto", "kit", "short", "camiseta"]
  else if c = "calcados" then ["sapato"]
  else if c = "acessorios" then ["bone", "acessorio"]
  else []

/-- Categories filter: each recognised category contributes its mapped
types; the clause is added only when some type was collected. -/
def categoriesClauses (q : ListQuery) : List Clause :=
  match q.categories with
  | some s =>
    if s = "" then []
    else
      let cats := splitCsv s
      if cats.isEmpty then []
      else
        let allTypes := cats.foldl (fun acc c => acc ++ categoryTypeMap c) []
        if allTypes.isEmpty then [] else [Clause.inList "type" allTypes]
  | none => []

/-- Sizes filter, using the array-contains operator. -/
def sizesClauses (q : ListQuery) : List Clause :=
  match q.sizes with
  | some s =>
    if s = "" then []
    else
      let a := splitCsv s
      if a.isEmpty then [] else [Clause.containsArr "sizes" a]
  | none => []

/-- Colors filter. -/
def colorsClauses (q : ListQuery) : List Clause :=
  match q.colors with
  | some s =>
    if s = "" then []
    else
      let a := splitCsv s
      if a.isEmpty then [] else [Clause.inList "color" a]
  | none => []

/-- The recognised price ranges and their clauses. -/
def priceRangeClauses (pr : String) : List Clause :=
  if pr = "0-50" then [Clause.gte "price" 0, Clause.lte "price" 50]
  else if pr = "50-100" then [Clause.gt "price" 50, Clause.lte "price" 100]
  else if pr = "100-200" then [Clause.gt "price" 100, Clause.lte "price" 200]
  else if pr = "200+" then [Clause.gt "price" 200]
  else []

/-- Price-range filter: skipped when absent, empty or `all`. -/
def priceClauses (q : ListQuery) : List Clause :=
  match q.priceRange with
  | some s => if s = "" || s = "all" then [] else priceRangeClauses s
  | none => []

/-- The recognised discount ranges and their clauses. -/
def discountRangeClauses (dr : String) : List Clause :=
  if dr = "10-30" then [Clause.gte "discount" 10, Clause.lte "discount" 30]
  else if dr = "30-50" then [Clause.gt "discount" 30, Clause.lte "discount" 50]
  else if dr = "50+" then [Clause.gt "discount" 50]
  else []

/-- Discount-range filter: skipped when absent, empty or `all`. -/
def discountClauses (q : ListQuery) : List Clause :=
  match q.discountRange with
  | some s => if s = "" || s = "all" then [] else discountRangeClauses s
  | none => []

/-- The sort parameter values the switch recognises explicitly. -/
def recognizedSorts : List String :=
  ["price_asc", "price_desc", "name_asc", "name_desc"]

/-- The ordering clauses the sort switch adds: exactly one per request,
`created_at` descending for `newest` and for anything unrecognised. -/
def sortOrders (q : ListQuery) : List OrderClause :=
  let sort := jsGetD q.sort "newest"
  if sort = "price_asc" then [OrderClause.order "price" true]
  else if sort = "price_desc" then [OrderClause.order "price" false]
  else if sort = "name_asc" then [OrderClause.order "name" true]
  else if sort = "name_desc" then [OrderClause.order "name" false]
  else [OrderClause.order "created_at" false]

/-- The `is_active` restriction added for non-admin requesters. -/
def activeClause (isAdmin : Bool) : List Clause :=
  if isAdmin then [] else [Clause.eqB "is_active" true]

/-- All predicate clauses `GET /api/products` builds, in source order. -/
def buildListClauses (isAdmin : Bool) (q : ListQuery) : List Clause :=
  activeClause isAdmin ++ searchClauses q ++ brandClauses q ++
    brandsClauses q ++ typesClauses q ++ categoriesClauses q ++
    sizesClauses q ++ colorsClauses q ++ priceClauses q ++ discountClauses q

/-- All predicate clauses `GET /api/products/:id` builds. -/
def buildSingleClauses (id : String) (isAdmin : Bool) : List Clause :=
  Clause.eqS "id" id :: activeClause isAdmin

/-- Interpretation of the `%s%` ilike patterns the route builds: case-insensitive
substring match on the enclosed text. -/
def ilikeTest (pat val : String) : Bool :=
  containsSubList (val.data.map Char.toLower)
    (((pat.data.drop 1).dropLast).map Char.toLower)

/-- Whether a product row satisfies one predicate clause, under the
standard evaluation the external database gives these operators. -/
def satClause (p : Product) : Clause → Bool
  | Clause.eqB col b => col = "is_active" && p.is_active = b
  | Clause.eqS col v =>
    (col = "id" && p.id = v) || (col = "brand" && p.brand = some v)
  | Clause.ilike col pat => col = "name" && ilikeTest pat p.name
  | Clause.inList col vs =>
    (col = "brand" && vs.any (fun v => p.brand = some v)) ||
    (col = "type" && vs.any (fun v => p.type = some v)) ||
    (col = "color" && vs.any (fun v => p.color = some v))
  | Clause.containsArr col vs => col = "sizes" && vs.all (fun v => p.sizes.contains v)
  | Clause.gte col v =>
    (col = "price" && p.price ≥ v) || (col = "discount" && p.discount ≥ v)
  | Clause.gt col v =>
    (col = "price" && p.price > v) || (col = "discount" && p.discount > v)
  | Clause.lte col v =>
    (col = "price" && p.price ≤ v) || (col = "discount" && p.discount ≤ v)

/-- The rows of a table the external database returns for a conjunction of
predicate clauses. -/
def evalQuery (clauses : List Clause) (table : List Product) : List Product :=
  table.filter (fun p => clauses.all (satClause p))

/-- An uploaded multipart file (only the fields the handlers read). -/
structure FileUpload where
  originalname : String
  mimetype : String
deriving DecidableEq

/-- The `sizes` body field, which may arrive as an array, a string, or not
at all. -/
inductive SizesField where
  | absent
  | str (s : String)
  | arr (l : List String)
deriving DecidableEq

/-- The request body of the product routes; absent fields are `none` and
numeric fields are modelled after `Number(...)` parsing. -/
structure ProductBody where
  name : Option String := none
  description : Option String := none
  price : Option Int := none
  stock : Option Int := none
  type : Option String := none
  color : Option String := none
  sizes : SizesField := SizesField.absent
  brand : Option String := none
deriving DecidableEq

/-- The `sizesArray` computation of `POST /api/products`: arrays pass
through, truthy strings are wrapped, everything else gives `[]`. -/
def sizesArrayOf : SizesField → List String
  | SizesField.arr l => l
  | SizesField.str s => if s = "" then [] else [s]
  | SizesField.absent => []

/-- The row `POST /api/products` sends to the insert. -/
structure ProductInsert where
  name : Option String
  description : Option String
  price : Int
  stock : Int
  type : Option String
  color : Option String
  brand : Option String
  sizes : List String
deriving DecidableEq

/-- Embedding of the `productInsert` object literal. -/
def mkProductInsert (b : ProductBody) : ProductInsert :=
  { name := b.name
    description := b.description
    price := b.price.getD 0
    stock := b.stock.getD 0
    type := orNull b.type
    color := orNull b.color
    brand := orNull b.brand
    sizes := sizesArrayOf b.sizes }

/-- The partial-update payload of `PUT /api/products/:id`: a field is
`none` when left out of the update, `some v` when set to `v` (for nullable
columns `some none` sets the column to `null`). -/
structure ProductChanges where
  name : Option String := none
  description : Option String := none
  price : Option Int := none
  stock : Option Int := none
  type : Option (Option String) := none
  color : Option (Option String) := none
  brand : Option (Option String) := none
  sizes : Option (List String) := none
  images : Option (List String) := none
deriving DecidableEq

/-- Embedding of the `changes` object `PUT /api/products/:id` builds from
its body (before any image handling). -/
def mkProductChanges (b : ProductBody) : ProductChanges :=
  { name := b.name
    description := b.description
    price := b.price
    stock := b.stock
    type := b.type.map (fun s => if s = "" then none else some s)
    color := b.color.map (fun s => if s = "" then none else some s)
    brand := b.brand.map (fun s => if s = "" then none else some s)
    sizes :=
      match b.sizes with
      | SizesField.absent => none
      | SizesField.arr l => some l
      | SizesField.str s => some (if s = "" then [] else [s])
    images := none }

/-- The row that results from applying a partial update to a stored
product row: only the columns present in the payload change. -/
def applyProductChanges (r : Product) (c : ProductChanges) : Product :=
  { r with
    name := c.name.getD r.name
    description := match c.description with
      | some d => some d
      | none => r.description
    price := c.price.getD r.price
    stock := c.stock.getD r.stock
    type := c.type.getD r.type
    color := c.color.getD r.color
    brand := c.brand.getD r.brand
    sizes := c.sizes.getD r.sizes
    images := c.images.getD r.images }

/-- The request body of the variation routes. `is_active` is kept as the
raw string the multipart form carries (`Boolean(s)` is `s ≠ ""`). -/
structure VariationBody where
  product_id : Option String := none
  name : Option String := none
  color : Option String := none
  size : Option String := none
  price : Option Int := none
  stock : Option Int := none
  is_active : Option String := none
deriving DecidableEq

/-- The row `POST /api/variations` sends to the insert. -/
structure VariationInsert where
  product_id : String
  name : String
  color : Option String
  size : Option String
  price : Int
  stock : Int
  images : List String
deriving DecidableEq

/-- The partial-update payload of `PUT /api/variations/:id`. -/
structure VariationChanges where
  name : Option String := none
  color : Option (Option String) := none
  size : Option (Option String) := none
  price : Option Int := none
  stock : Option Int := none
  is_active : Option Bool := none
  images : Option (List String) := none
deriving DecidableEq

/-- Embedding of the `changes` object `PUT /api/variations/:id` builds
from its body (before any image handling). -/
def mkVariationChanges (b : VariationBody) : VariationChanges :=
  { name := b.name
    color := b.color.map (fun s => if s = "" then none else some s)
    size := b.size.map (fun s => if s = "" then none else some s)
    price := b.price
    stock := b.stock
    is_active := b.is_active.map (fun s => s ≠ "")
    images := none }

/-- The row that results from applying a variation partial update. -/
def applyVariationChanges (r : Variation) (c : VariationChanges) : Variation :=
  { r with
    name := c.name.getD r.name
    color := c.color.getD r.color
    size := c.size.getD r.size
    price := c.price.getD r.price
    stock := c.stock.getD r.stock
    is_active := c.is_active.getD r.is_active
    images := c.images.getD r.images }

/-- JS: the last dot-separated component of `f.originalname`, with `jpg` as the fallback. -/
def extOf (name : String) : String :=
  if name = "" then "jpg"
  else
    let e := ((splitChar '.' name.data).map String.mk).getLastD ""
    if e = "" then "jpg" else e

/-- The storage key `products/<id>/<now>_<i>.<ext>` of the product image
uploads; `Date.now()` is abstracted to one `now` value per request. -/
def productKey (id : String) (now : Nat) (i : Nat) (f : FileUpload) : String :=
  "products/" ++ id ++ "/" ++ toString now ++ "_" ++ toString i ++ "." ++
    extOf f.originalname

/-- The storage key `variations/<product_id>/<now>_<i>.<ext>` of the
variation image uploads. -/
def variationKey (pid : String) (now : Nat) (i : Nat) (f : FileUpload) : String :=
  "variations/" ++ pid ++ "/" ++ toString now ++ "_" ++ toString i ++ "." ++
    extOf f.originalname

/-- Outcome of the sequential image-upload loop: the keys uploaded so far
(the loop breaks, keeping them, on an RLS-style storage error) or a hard
failure that aborts the request with a 500 response. -/
inductive UploadOutcome where
  | done (keys : List String) (calls : List ExtCall)
  | failed (e : DbErr) (calls : List ExtCall)
deriving DecidableEq

/-- The calls a finished upload loop made. -/
def UploadOutcome.calls : UploadOutcome → List ExtCall
  | UploadOutcome.done _ c => c
  | UploadOutcome.failed _ c => c

/-- The upload loop body, carried out from file index `i` with the keys
and calls accumulated so far. -/
def runUploadsGo (mk : Nat → FileUpload → String) (up : String → Option DbErr) :
    Nat → List FileUpload → List String → List ExtCall → UploadOutcome
  | _, [], keys, calls => UploadOutcome.done keys calls
  | i, f :: rest, keys, calls =>
    let key := mk i f
    match up key with
    | none =>
      runUploadsGo mk up (i + 1) rest (keys ++ [key]) (calls ++ [ExtCall.stUpload key])
    | some e =>
      if isRlsError e then UploadOutcome.done keys (calls ++ [ExtCall.stUpload key])
      else UploadOutcome.failed e (calls ++ [ExtCall.stUpload key])

/-- Embedding of the image-upload `for` loop shared by the product and
variation create / update handlers. -/
def runUploads (mk : Nat → FileUpload → String) (up : String → Option DbErr)
    (files : List FileUpload) : UploadOutcome :=
  runUploadsGo mk up 0 files [] []

/-- A site-settings row (`key, value, type`). -/
structure SettingRow where
  key : String
  value : String
  type : String
deriving DecidableEq

/-- A value of the settings object `GET /api/site-settings` returns. -/
structure SettingVal where
  value : String
  type : String
deriving DecidableEq

/-- The JSON body of a handler response. -/
inductive Body where
  | productB (p : Product) (warning : Option String)
  | productsB (ps : List Product)
  | variationB (v : Variation)
  | variationsB (vs : List Variation)
  | okB
  | settingsB (obj : List (String × SettingVal))
  | settingB (s : SettingRow) (message : Option String)
  | uploadB (s : SettingRow) (url : String) (message : String)
  | errorB (msg : String)
deriving DecidableEq

/-- A handler response: HTTP status and JSON body. -/
structure Resp where
  status : Nat
  body : Body
deriving DecidableEq

/-- The error message of a response, when its body is an error body. -/
def Resp.errMsg (r : Resp) : Option String :=
  match r.body with
  | Body.errorB m => some m
  | _ => none

/-- The products carried by a response body. -/
def bodyProducts : Body → List Product
  | Body.productB p _ => [p]
  | Body.productsB ps => ps
  | _ => []

/-- The variations carried directly by a response body. -/
def bodyVariations : Body → List Variation
  | Body.variationB v => [v]
  | Body.variationsB vs => vs
  | _ => []

/-- The settings object carried by a response body. -/
def bodySettings : Body → List (String × SettingVal)
  | Body.settingsB obj => obj
  | _ => []

/-- Embedding of `POST /api/products`: insert the product, upload up to
five images, attach the uploaded keys with a second update, and answer
with the converted product (plus a warning when files were sent but none
were stored). `insertRes`, `up` and `updateRes` are the external
database / storage oracles. -/
def productsPost (o : StorageOracle) (now : Nat) (body : ProductBody)
    (files : List FileUpload) (insertRes : Except DbErr Product)
    (up : String → Option DbErr) (updateRes : Except DbErr Product) :
    Resp × List ExtCall :=
  let _row := mkProductInsert body
  match insertRes with
  | Except.error e => (⟨400, Body.errorB e.message⟩, [ExtCall.db DbOp.insert "products"])
  | Except.ok prod =>
    match runUploads (productKey prod.id now) up files with
    | UploadOutcome.failed _ calls =>
      (⟨500, Body.errorB "Erro ao fazer upload das imagens"⟩,
        ExtCall.db DbOp.insert "products" :: calls)
    | UploadOutcome.done keys calls =>
      let r2 :=
        if keys.isEmpty then (prod, calls)
        else
          match updateRes with
          | Except.error _ => (prod, calls ++ [ExtCall.db DbOp.update "products"])
          | Except.ok updated =>
            ({ prod with images := updated.images },
              calls ++ [ExtCall.db DbOp.update "products"])
      let r3 := productWithAccessibleImages o r2.fst
      let warn :=
        if !files.isEmpty && r2.fst.images.isEmpty then
          some "Produto criado mas imagens não foram salvas. Configure as políticas de storage no Supabase."
        else none
      (⟨200, Body.productB r3.fst warn⟩,
        ExtCall.db DbOp.insert "products" :: (r2.snd ++ r3.snd))

/-- Embedding of `GET /api/products`: build the filter clauses, run the
select, convert every returned row. `selRes` stands for the rows the
external database returns for the built query. -/
def productsList (o : StorageOracle) (user : Option UserPayload) (q : ListQuery)
    (selRes : Except DbErr (List Product)) : Resp × List ExtCall :=
  let _clauses := buildListClauses (isAdminOf user) q
  let _orders := sortOrders q
  match selRes with
  | Except.error e => (⟨500, Body.errorB e.message⟩, [ExtCall.db DbOp.select "products"])
  | Except.ok rows =>
    let rs := rows.map (productWithAccessibleImages o)
    (⟨200, Body.productsB (rs.map Prod.fst)⟩,
      ExtCall.db DbOp.select "products" :: (rs.map Prod.snd).flatten)

/-- Embedding of `GET /api/products/:id`: select the row, translate
no-rows errors into a 404, and answer with the converted product including
its active variations. -/
def productsGetId (o : StorageOracle) (user : Option UserPayload) (id : String)
    (selRes : Except DbErr (Option Product))
    (varRes : Except DbErr (List Variation)) : Resp × List ExtCall :=
  if id = "" then (⟨400, Body.errorB "ID do produto inválido"⟩, [])
  else
    let _clauses := buildSingleClauses id (isAdminOf user)
    match selRes with
    | Except.error e =>
      if isNoRowsErr e then
        (⟨404, Body.errorB "Produto não encontrado"⟩, [ExtCall.db DbOp.select "products"])
      else (⟨500, Body.errorB e.message⟩, [ExtCall.db DbOp.select "products"])
    | Except.ok none =>
      (⟨404, Body.errorB "Produto não encontrado"⟩, [ExtCall.db DbOp.select "products"])
    | Except.ok (some data) =>
      let r := productWithVariationsConv o varRes data
      (⟨200, Body.productB r.fst none⟩, ExtCall.db DbOp.select "products" :: r.snd)

/-- Outcome of the update-preparation phase of the PUT handlers: the
partial-update payload and the calls made so far, or an upload failure. -/
inductive PutPrep where
  | ready (changes : ProductChanges) (calls : List ExtCall)
  | failed (e : DbErr) (calls : List ExtCall)
deriving DecidableEq

/-- The calls a finished product-update preparation made. -/
def PutPrep.calls : PutPrep → List ExtCall
  | PutPrep.ready _ c => c
  | PutPrep.failed _ c => c

/-- The preparation phase of `PUT /api/products/:id`: build `changes` from
the body; when files were sent, upload them and, if any key was stored,
fetch the existing image keys and append the new ones. `selImages` is the
row the existing-images select returns. -/
def productsPutPrep (now : Nat) (id : String) (body : ProductBody)
    (files : List FileUpload) (up : String → Option DbErr)
    (selImages : Option Product) : PutPrep :=
  let base := mkProductChanges body
  if files.isEmpty then PutPrep.ready base []
  else
    match runUploads (productKey id now) up files with
    | UploadOutcome.failed e calls => PutPrep.failed e calls
    | UploadOutcome.done keys calls =>
      if keys.isEmpty then PutPrep.ready base calls
      else
        let existing :=
          match selImages with
          | none => []
          | some r => r.images
        PutPrep.ready { base with images := some (existing ++ keys) }
          (calls ++ [ExtCall.db DbOp.select "products"])

/-- Embedding of `PUT /api/products/:id`. -/
def productsPut (o : StorageOracle) (now : Nat) (id : String)
    (body : ProductBody) (files : List FileUpload) (up : String → Option DbErr)
    (selImages : Option Product) (updateRes : Except DbErr Product) :
    Resp × List ExtCall :=
  match productsPutPrep now id body files up selImages with
  | PutPrep.failed _ calls =>
    (⟨500, Body.errorB "Erro ao fazer upload das imagens"⟩, calls)
  | PutPrep.ready changes calls =>
    match updateRes with
    | Except.error e =>
      (⟨400, Body.errorB e.message⟩, calls ++ [ExtCall.db DbOp.update "products"])
    | Except.ok data =>
      let r := productWithAccessibleImages o data
      let warn :=
        if !files.isEmpty && (match changes.images with
            | none => true
            | some l => l.isEmpty) then
          some "Produto atualizado mas imagens não foram salvas. Configure as políticas de storage no Supabase."
        else none
      (⟨200, Body.productB r.fst warn⟩,
        calls ++ [ExtCall.db DbOp.update "products"] ++ r.snd)

/-- Embedding of `DELETE /api/products/:id`. -/
def productsDelete (delRes : Option DbErr) : Resp × List ExtCall :=
  match delRes with
  | some e => (⟨400, Body.errorB e.message⟩, [ExtCall.db DbOp.delete "products"])
  | none => (⟨200, Body.okB⟩, [ExtCall.db DbOp.delete "products"])

/-- Embedding of `POST /api/variations`: validate the required fields,
upload the images, insert the variation with the uploaded keys, and answer
with the converted variation. -/
def variationsPost (o : StorageOracle) (now : Nat) (body : VariationBody)
    (files : List FileUpload) (up : String → Option DbErr)
    (insertRes : Except DbErr Variation) : Resp × List ExtCall :=
  if !optTruthy body.product_id || !optTruthy body.name then
    (⟨400, Body.errorB "Campos obrigatórios: product_id e name"⟩, [])
  else
    match runUploads (variationKey (body.product_id.getD "") now) up files with
    | UploadOutcome.failed _ calls =>
      (⟨500, Body.errorB "Erro ao fazer upload das imagens"⟩, calls)
    | UploadOutcome.done keys calls =>
      let _row : VariationInsert :=
        { product_id := body.product_id.getD ""
          name := body.name.getD ""
          color := orNull body.color
          size := orNull body.size
          price := body.price.getD 0
          stock := body.stock.getD 0
          images := keys }
      match insertRes with
      | Except.error e =>
        (⟨400, Body.errorB e.message⟩,
          calls ++ [ExtCall.db DbOp.insert "product_variations"])
      | Except.ok variation =>
        let r := variationWithAccessibleImagesV o variation
        (⟨200, Body.variationB r.fst⟩,
          calls ++ [ExtCall.db DbOp.insert "product_variations"] ++ r.snd)

/-- Embedding of `GET /api/variations/product/:product_id`. -/
def variationsGetByProduct (o : StorageOracle) (pid : String)
    (selRes : Except DbErr (List Variation)) : Resp × List ExtCall :=
  if pid = "" then (⟨400, Body.errorB "ID do produto inválido"⟩, [])
  else
    match selRes with
    | Except.error e =>
      (⟨500, Body.errorB e.message⟩, [ExtCall.db DbOp.select "product_variations"])
    | Except.ok vs =>
      let rs := vs.map (variationWithAccessibleImagesV o)
      (⟨200, Body.variationsB (rs.map Prod.fst)⟩,
        ExtCall.db DbOp.select "product_variations" :: (rs.map Prod.snd).flatten)

/-- Outcome of the update-preparation phase of `PUT /api/variations/:id`. -/
inductive VPutPrep where
  | ready (changes : VariationChanges) (calls : List ExtCall)
  | failed (e : DbErr) (calls : List ExtCall)
deriving DecidableEq

/-- The calls a finished variation-update preparation made. -/
def VPutPrep.calls : VPutPrep → List ExtCall
  | VPutPrep.ready _ c => c
  | VPutPrep.failed _ c => c

/-- The preparation phase of `PUT /api/variations/:id`: build `changes`;
when files were sent, fetch the `product_id` of the variation for the key path
(`unknown` when the row or the field is missing), upload, and if any key
was stored fetch the existing keys and append the new ones. -/
def variationsPutPrep (now : Nat) (id : String) (body : VariationBody)
    (files : List FileUpload) (up : String → Option DbErr)
    (selPid : Option Variation) (selImages : Option Variation) : VPutPrep :=
  let base := mkVariationChanges body
  if files.isEmpty then VPutPrep.ready base []
  else
    let pid :=
      match selPid with
      | none => "unknown"
      | some r => if r.product_id = "" then "unknown" else r.product_id
    let calls0 := [ExtCall.db DbOp.select "product_variations"]
    match runUploads (variationKey pid now) up files with
    | UploadOutcome.failed e calls => VPutPrep.failed e (calls0 ++ calls)
    | UploadOutcome.done keys calls =>
      if keys.isEmpty then VPutPrep.ready base (calls0 ++ calls)
      else
        let existing :=
          match selImages with
          | none => []
          | some r => r.images
        VPutPrep.ready { base with images := some (existing ++ keys) }
          (calls0 ++ calls ++ [ExtCall.db DbOp.select "product_variations"])

/-- Embedding of `PUT /api/variations/:id`. -/
def variationsPut (o : StorageOracle) (now : Nat) (id : String)
    (body : VariationBody) (files : List FileUpload)
    (up : String → Option DbErr) (selPid : Option Variation)
    (selImages : Option Variation) (updateRes : Except DbErr Variation) :
    Resp × List ExtCall :=
  match variationsPutPrep now id body files up selPid selImages with
  | VPutPrep.failed _ calls =>
    (⟨500, Body.errorB "Erro ao fazer upload das imagens"⟩, calls)
  | VPutPrep.ready _ calls =>
    match updateRes with
    | Except.error e =>
      (⟨400, Body.errorB e.message⟩,
        calls ++ [ExtCall.db DbOp.update "product_variations"])
    | Except.ok variation =>
      let r := variationWithAccessibleImagesV o variation
      (⟨200, Body.variationB r.fst⟩,
        calls ++ [ExtCall.db DbOp.update "product_variations"] ++ r.snd)

/-- Embedding of `DELETE /api/variations/:id`. -/
def variationsDelete (delRes : Option DbErr) : Resp × List ExtCall :=
  match delRes with
  | some e => (⟨400, Body.errorB e.message⟩, [ExtCall.db DbOp.delete "product_variations"])
  | none => (⟨200, Body.okB⟩, [ExtCall.db DbOp.delete "product_variations"])

/-- The table-existence probe the site-settings router runs as middleware
before every settings route; its result never changes control flow. -/
def settingsProbe : List ExtCall := [ExtCall.db DbOp.select "site_settings"]

/-- Lookup in the assoc-list settings object. -/
def lookupKV (obj : List (String × SettingVal)) (k : String) : Option SettingVal :=
  (obj.find? (fun p => p.fst = k)).map Prod.snd

/-- JS `settingsObj[key] = v`: overwrite an existing key or append. -/
def insertKV (obj : List (String × SettingVal)) (k : String) (v : SettingVal) :
    List (String × SettingVal) :=
  if (obj.find? (fun p => p.fst = k)).isSome then
    obj.map (fun p => if p.fst = k then (k, v) else p)
  else obj ++ [(k, v)]

/-- Fold the returned rows into the settings object. -/
def settingsToObj (rows : List SettingRow) : List (String × SettingVal) :=
  rows.foldl (fun acc r => insertKV acc r.key ⟨r.value, r.type⟩) []

/-- JS `if (!settingsObj[k]) settingsObj[k] = v`. -/
def withDefaultKV (obj : List (String × SettingVal)) (k : String)
    (v : SettingVal) : List (String × SettingVal) :=
  if (lookupKV obj k).isSome then obj else obj ++ [(k, v)]

/-- The three background defaults `GET /api/site-settings` guarantees. -/
def settingsWithDefaults (obj : List (String × SettingVal)) :
    List (String × SettingVal) :=
  let o1 := withDefaultKV obj "site_background_type" ⟨"color", "text"⟩
  let o2 := withDefaultKV o1 "site_background_value" ⟨"#f5f5f5", "text"⟩
  withDefaultKV o2 "site_background_video_url" ⟨"", "text"⟩

/-- Embedding of `GET /api/site-settings`: on a missing-table error answer
`200` with an empty settings object, on any other error `500`, otherwise
the keyed object with the background defaults filled in. -/
def settingsGet (selRes : Except DbErr (List SettingRow)) : Resp × List ExtCall :=
  let calls := settingsProbe ++ [ExtCall.db DbOp.select "site_settings"]
  match selRes with
  | Except.error e =>
    if isTableMissingErr e then (⟨200, Body.settingsB []⟩, calls)
    else (⟨500, Body.errorB e.message⟩, calls)
  | Except.ok rows =>
    (⟨200, Body.settingsB (settingsWithDefaults (settingsToObj rows))⟩, calls)

/-- Embedding of `GET /api/site-settings/:key`. -/
def settingsGetKey (key : String) (selRes : Except DbErr (Option SettingRow)) :
    Resp × List ExtCall :=
  let calls := settingsProbe ++ [ExtCall.db DbOp.select "site_settings"]
  match selRes with
  | Except.error _ => (⟨404, Body.errorB "Configuração não encontrada"⟩, calls)
  | Except.ok none => (⟨404, Body.errorB "Configuração não encontrada"⟩, calls)
  | Except.ok (some s) => (⟨200, Body.settingB s none⟩, calls)

/-- Embedding of `PUT /api/site-settings/:key`: update the row, and when
the update reports no matching row (PGRST116) insert it instead. -/
def settingsPut (key : String) (value : Option String)
    (updateRes : Except DbErr SettingRow) (insertRes : Except DbErr SettingRow) :
    Resp × List ExtCall :=
  if value.isNone then (⟨400, Body.errorB "Valor é obrigatório"⟩, settingsProbe)
  else
    let calls := settingsProbe ++ [ExtCall.db DbOp.update "site_settings"]
    match updateRes with
    | Except.ok s =>
      (⟨200, Body.settingB s (some "Configuração atualizada com sucesso")⟩, calls)
    | Except.error e =>
      if e.code = "PGRST116" then
        match insertRes with
        | Except.error ce =>
          (⟨500, Body.errorB ce.message⟩, calls ++ [ExtCall.db DbOp.insert "site_settings"])
        | Except.ok ns =>
          (⟨200, Body.settingB ns (some "Configuração criada com sucesso")⟩,
            calls ++ [ExtCall.db DbOp.insert "site_settings"])
      else (⟨500, Body.errorB e.message⟩, calls)

/-- JS `path.extname` as the handlers use it (names with an extension). -/
def extname (s : String) : String :=
  let parts := (splitChar '.' s.data).map String.mk
  if parts.length ≤ 1 then "" else "." ++ parts.getLastD ""

/-- Embedding of `POST /api/site-settings/:key/upload`: require a file,
require the setting row to exist, upload to the bucket root, and store the
public URL on the setting. -/
def settingsUpload (o : StorageOracle) (now : Nat) (key : String)
    (file : Option FileUpload) (selRes : Option SettingRow)
    (upErr : Option DbErr) (updateRes : Except DbErr SettingRow) :
    Resp × List ExtCall :=
  match file with
  | none => (⟨400, Body.errorB "Nenhuma imagem enviada"⟩, settingsProbe)
  | some f =>
    let calls1 := settingsProbe ++ [ExtCall.db DbOp.select "site_settings"]
    match selRes with
    | none => (⟨404, Body.errorB "Configuração não encontrada"⟩, calls1)
    | some _ =>
      let filePath := key ++ "_" ++ toString now ++ extname f.originalname
      let calls2 := calls1 ++ [ExtCall.stUpload filePath]
      match upErr with
      | some e =>
        if e.statusCode = "403" || containsSub e.message "row-level security" then
          (⟨403, Body.errorB "Upload bloqueado pelas políticas de segurança do Supabase Storage."⟩,
            calls2)
        else (⟨500, Body.errorB "Erro ao fazer upload da imagem"⟩, calls2)
      | none =>
        let publicUrl := (o.pub filePath).dataPublicUrl.getD ""
        let calls3 := calls2 ++ [ExtCall.stPublicUrl filePath]
        match updateRes with
        | Except.error e =>
          (⟨500, Body.errorB e.message⟩, calls3 ++ [ExtCall.db DbOp.update "site_settings"])
        | Except.ok s =>
          (⟨200, Body.uploadB s publicUrl "Imagem enviada com sucesso"⟩,
            calls3 ++ [ExtCall.db DbOp.update "site_settings"])

/-- The unanchored regex `/mp4|webm|ogg|avi|mov|wmv/`. -/
def videoRe (s : String) : Bool :=
  containsSub s "mp4" || containsSub s "webm" || containsSub s "ogg" ||
  containsSub s "avi" || containsSub s "mov" || containsSub s "wmv"

/-- Embedding of `POST /api/site-settings/site_background_video/upload`:
require a video file, upload it, store the public URL on the
`site_background_video_url` setting, inserting it when missing. -/
def settingsVideoUpload (o : StorageOracle) (now : Nat)
    (file : Option FileUpload) (upErr : Option DbErr)
    (updateRes : Except DbErr SettingRow) (insertRes : Except DbErr SettingRow) :
    Resp × List ExtCall :=
  match file with
  | none => (⟨400, Body.errorB "Nenhum vídeo enviado"⟩, settingsProbe)
  | some f =>
    if !(videoRe (strToLower (extname f.originalname)) && videoRe f.mimetype) then
      (⟨400, Body.errorB "Apenas vídeos são permitidos (MP4, WebM, OGG, AVI, MOV, WMV)"⟩,
        settingsProbe)
    else
      let filePath := "site_background_video_" ++ toString now ++ extname f.originalname
      let calls2 := settingsProbe ++ [ExtCall.stUpload filePath]
      match upErr with
      | some _ => (⟨500, Body.errorB "Erro ao fazer upload do vídeo"⟩, calls2)
      | none =>
        let publicUrl := (o.pub filePath).dataPublicUrl.getD ""
        let calls3 := calls2 ++ [ExtCall.stPublicUrl filePath]
        match updateRes with
        | Except.ok s =>
          (⟨200, Body.uploadB s publicUrl "Vídeo enviado com sucesso"⟩,
            calls3 ++ [ExtCall.db DbOp.update "site_settings"])
        | Except.error e =>
          if e.code = "PGRST116" then
            match insertRes with
            | Except.error ce =>
              (⟨500, Body.errorB ce.message⟩,
                calls3 ++ [ExtCall.db DbOp.update "site_settings",
                  ExtCall.db DbOp.insert "site_settings"])
            | Except.ok ns =>
              (⟨200, Body.uploadB ns publicUrl "Vídeo enviado com sucesso"⟩,
                calls3 ++ [ExtCall.db DbOp.update "site_settings",
                  ExtCall.db DbOp.insert "site_settings"])
          else (⟨500, Body.errorB e.message⟩, calls3 ++ [ExtCall.db DbOp.update "site_settings"])

/-- The default settings `GET /api/site-settings/initialize` seeds. -/
def defaultSettings : List SettingRow :=
  [⟨"announcement_text", "Frete grátis em compras acima de R$ 199", "text"⟩,
   ⟨"hero_banner_title", "Nova Coleção", "text"⟩,
   ⟨"hero_banner_subtitle", "Até 70% OFF + 20% no primeiro pedido", "text"⟩,
   ⟨"site_background_type", "color", "text"⟩,
   ⟨"site_background_value", "#f5f5f5", "text"⟩,
   ⟨"site_background_video_url", "", "text"⟩]

/-- Embedding of `GET /api/site-settings/initialize`: read the existing
keys and insert only the missing defaults. -/
def settingsInit (selRes : Option (List SettingRow))
    (insertErr : Option DbErr) : Resp × List ExtCall :=
  let calls := settingsProbe ++ [ExtCall.db DbOp.select "site_settings"]
  let existingKeys := (selRes.getD []).map (fun s => s.key)
  let toInsert := defaultSettings.filter (fun s => !existingKeys.contains s.key)
  if toInsert.isEmpty then (⟨200, Body.okB⟩, calls)
  else
    match insertErr with
    | some _ =>
      (⟨500, Body.errorB "Erro ao inicializar configurações"⟩,
        calls ++ [ExtCall.db DbOp.insert "site_settings"])
    | none => (⟨200, Body.okB⟩, calls ++ [ExtCall.db DbOp.insert "site_settings"])

/-- Every error message the handlers hardcode; all of them are Portuguese. -/
def hardcodedMessages : List String :=
  ["ID do produto inválido", "Produto não encontrado",
   "Erro ao fazer upload das imagens", "Campos obrigatórios: product_id e name",
   "Configuração não encontrada", "Valor é obrigatório",
   "Nenhuma imagem enviada", "Nenhum vídeo enviado",
   "Apenas vídeos são permitidos (MP4, WebM, OGG, AVI, MOV, WMV)",
   "Upload bloqueado pelas políticas de segurança do Supabase Storage.",
   "Erro ao fazer upload da imagem", "Erro ao fazer upload do vídeo",
   "Erro ao inicializar configurações"]

/-- The external error messages a database-result oracle can contribute. -/
def exMsgs {α : Type} : Except DbErr α → List String
  | Except.error e => [e.message]
  | Except.ok _ => []

/-- The external error message a delete-style oracle can contribute. -/
def optErrMsgs : Option DbErr → List String
  | some e => [e.message]
  | none => []

/-- Count of database calls in a trace. -/
def dbCount (l : List ExtCall) : Nat :=
  (l.filter fun c =>
    match c with
    | ExtCall.db _ _ => true
    | _ => false).length

/-- Count of storage-upload calls in a trace. -/
def upCount (l : List ExtCall) : Nat :=
  (l.filter fun c =>
    match c with
    | ExtCall.stUpload _ => true
    | _ => false).length

/-- Count of public-URL and signed-URL calls in a trace. -/
def urlCount (l : List ExtCall) : Nat :=
  (l.filter fun c =>
    match c with
    | ExtCall.stPublicUrl _ => true
    | ExtCall.stSignedUrl _ => true
    | _ => false).length

/-- Total number of stored image keys in a list of product rows. -/
def sumPImgs (ps : List Product) : Nat :=
  (ps.map fun p => p.images.length).sum

/-- Total number of stored image keys in a list of variation rows. -/
def sumVImgs (vs : List Variation) : Nat :=
  (vs.map fun v => v.images.length).sum

/-- Image keys carried by a product-row oracle result. -/
def exImgsP : Except DbErr Product → Nat
  | Except.ok p => p.images.length
  | Except.error _ => 0

/-- Image keys carried by a product-list oracle result. -/
def exImgsPList : Except DbErr (List Product) → Nat
  | Except.ok ps => sumPImgs ps
  | Except.error _ => 0

/-- Image keys carried by an optional-product oracle result. -/
def exImgsPOpt : Except DbErr (Option Product) → Nat
  | Except.ok (some p) => p.images.length
  | _ => 0

/-- Image keys carried by a variation-row oracle result. -/
def exImgsV : Except DbErr Variation → Nat
  | Except.ok v => v.images.length
  | Except.error _ => 0

/-- Image keys carried by a variation-list oracle result. -/
def exImgsVList : Except DbErr (List Variation) → Nat
  | Except.ok vs => sumVImgs vs
  | Except.error _ => 0

/-- A storage oracle is URL-sound when every URL it hands out is an
http(s) URL; this is the (externally guaranteed) contract of the storage
public-URL and signed-URL calls of the service. -/
def urlSound (o : StorageOracle) : Prop :=
  ∀ k : String,
    (∀ u, (o.pub k).dataPublicUrl = some u → isHttpUrl u = true) ∧
    (∀ u, (o.pub k).publicURL = some u → isHttpUrl u = true) ∧
    (∀ u, o.signed k = Except.ok (some u) → isHttpUrl u = true)

/-- Every image reference of a product response object is an http(s) URL. -/
def imagesAreUrls (p : Product) : Prop :=
  (∀ x ∈ p.images, isHttpUrl x = true) ∧
  (∀ u, p.image = some u → isHttpUrl u = true)

/-- Every image reference of a variation response object is an http(s)
URL. -/
def vImagesAreUrls (v : Variation) : Prop :=
  (∀ x ∈ v.images, isHttpUrl x = true) ∧
  (∀ u, v.image = some u → isHttpUrl u = true)

/-- Concrete storage oracle whose public-URL call yields nothing while its
signed-URL call would succeed. -/
def noPubOracle : StorageOracle :=
  { pub := fun _ => ⟨none, none⟩
    signed := fun _ => Except.ok (some "http://signed.example/x") }

/-- Concrete storage oracle whose public-URL call always yields a URL. -/
def pubOracle : StorageOracle :=
  { pub := fun _ => ⟨some "http://cdn.example/img", none⟩
    signed := fun _ => Except.ok none }

/-- A concrete product row with no images, used by the witnesses. -/
def sampleProduct : Product :=
  { id := "7", name := "Camisa", description := none, price := 50, stock := 3
    type := some "camisa", color := none, brand := some "Nike", sizes := ["M"]
    images := [], is_active := true, discount := 0, created_at := 10
    image := none, variations := none }

/-- A concrete product row with two stored image keys. -/
def sampleProductImgs : Product :=
  { sampleProduct with id := "8", images := ["products/8/1_0.jpg", "products/8/1_1.jpg"] }

/-- A concrete inactive product row. -/
def sampleInactive : Product :=
  { sampleProduct with id := "9", is_active := false }

/-- A concrete variation row with one stored image key and no singular
image value. -/
def sampleVariation : Variation :=
  { id := "1", product_id := "2", name := "v", color := none, size := none
    price := 0, stock := 0, images := ["variations/2/1_0.jpg"]
    is_active := true, image := none }

/-- A concrete file upload. -/
def sampleFile : FileUpload :=
  { originalname := "foto.jpg", mimetype := "image/jpeg" }

/-- The storage keys a successful product-image upload loop produces, in
file order. -/
def productUploadKeys (id : String) (now : Nat) (files : List FileUpload) :
    List String :=
  files.enum.map (fun x => productKey id now x.fst x.snd)

/-- The storage keys a successful variation-image upload loop produces,
in file order. -/
def variationUploadKeys (pid : String) (now : Nat) (files : List FileUpload) :
    List String :=
  files.enum.map (fun x => variationKey pid now x.fst x.snd)

theorem dbCount_append (a b : List ExtCall) :
    dbCount (a ++ b) = dbCount a + dbCount b := by
  simp [dbCount, List.filter_append]

theorem upCount_append (a b : List ExtCall) :
    upCount (a ++ b) = upCount a + upCount b := by
  simp [upCount, List.filter_append]

theorem urlCount_append (a b : List ExtCall) :
    urlCount (a ++ b) = urlCount a + urlCount b := by
  simp [urlCount, List.filter_append]

theorem dbCount_cons (c : ExtCall) (l : List ExtCall) :
    dbCount (c :: l) = dbCount [c] + dbCount l := by
  rw [← List.singleton_append, dbCount_append]

theorem upCount_cons (c : ExtCall) (l : List ExtCall) :
    upCount (c :: l) = upCount [c] + upCount l := by
  rw [← List.singleton_append, upCount_append]

theorem urlCount_cons (c : ExtCall) (l : List ExtCall) :
    urlCount (c :: l) = urlCount [c] + urlCount l := by
  rw [← List.singleton_append, urlCount_append]

theorem makeAccessibleUrl_trace (o : StorageOracle) (k : String) :
    (makeAccessibleUrl o k).snd = [] ∨
    (makeAccessibleUrl o k).snd = [ExtCall.stPublicUrl k] ∨
    (makeAccessibleUrl o k).snd = [ExtCall.stPublicUrl k, ExtCall.stSignedUrl k] := by
  unfold makeAccessibleUrl
  dsimp only
  split
  · exact Or.inl rfl
  split
  · exact Or.inl rfl
  split
  · exact Or.inr (Or.inl rfl)
  split
  · exact Or.inr (Or.inl rfl)
  split
  · exact Or.inr (Or.inr rfl)
  split
  · exact Or.inr (Or.inr rfl)
  · exact Or.inr (Or.inr rfl)

theorem makeAccessibleUrl_counts (o : StorageOracle) (k : String) :
    dbCount (makeAccessibleUrl o k).snd = 0 ∧
    upCount (makeAccessibleUrl o k).snd = 0 ∧
    urlCount (makeAccessibleUrl o k).snd ≤ 2 := by
  rcases makeAccessibleUrl_trace o k with h | h | h <;> rw [h] <;>
    exact ⟨rfl, rfl, by simp [urlCount, List.filter]⟩

theorem variationImageUrl_trace (o : StorageOracle) (k : String) :
    (variationImageUrl o k).snd = [ExtCall.stPublicUrl k] := by
  unfold variationImageUrl
  dsimp only
  split
  · rfl
  split
  · rfl
  · rfl

theorem variationImageUrl_counts (o : StorageOracle) (k : String) :
    dbCount (variationImageUrl o k).snd = 0 ∧
    upCount (variationImageUrl o k).snd = 0 ∧
    urlCount (variationImageUrl o k).snd ≤ 2 := by
  rw [variationImageUrl_trace]
  exact ⟨rfl, rfl, by simp [urlCount, List.filter]⟩

theorem convertImages_snd_nil (mk : String → Option String × List ExtCall) :
    (convertImages mk []).snd = [] := rfl

theorem convertImages_snd_cons (mk : String → Option String × List ExtCall)
    (k : String) (rest : List String) :
    (convertImages mk (k :: rest)).snd = (mk k).snd ++ (convertImages mk rest).snd := by
  simp [convertImages]

theorem convertImages_counts (mk : String → Option String × List ExtCall)
    (h : ∀ k, dbCount (mk k).snd = 0 ∧ upCount (mk k).snd = 0 ∧ urlCount (mk k).snd ≤ 2)
    (keys : List String) :
    dbCount (convertImages mk keys).snd = 0 ∧
    upCount (convertImages mk keys).snd = 0 ∧
    urlCount (convertImages mk keys).snd ≤ 2 * keys.length := by
  induction keys with
  | nil => exact ⟨rfl, rfl, by simp [convertImages_snd_nil, urlCount]⟩
  | cons k rest ih =>
    refine ⟨?_, ?_, ?_⟩ <;> rw [convertImages_snd_cons]
    · rw [dbCount_append, (h k).1, ih.1]
    · rw [upCount_append, (h k).2.1, ih.2.1]
    · rw [urlCount_append]
      have h1 := (h k).2.2
      have h2 := ih.2.2
      simp only [List.length_cons]
      omega

theorem productConv_counts (o : StorageOracle) (p : Product) :
    dbCount (productWithAccessibleImages o p).snd = 0 ∧
    upCount (productWithAccessibleImages o p).snd = 0 ∧
    urlCount (productWithAccessibleImages o p).snd ≤ 2 * p.images.length := by
  by_cases hp : p.images.isEmpty
  · simp [productWithAccessibleImages, hp, dbCount, upCount, urlCount]
  · simpa [productWithAccessibleImages, hp] using
      convertImages_counts (makeAccessibleUrl o) (makeAccessibleUrl_counts o) p.images

theorem variationConvP_counts (o : StorageOracle) (v : Variation) :
    dbCount (variationWithAccessibleImagesP o v).snd = 0 ∧
    upCount (variationWithAccessibleImagesP o v).snd = 0 ∧
    urlCount (variationWithAccessibleImagesP o v).snd ≤ 2 * v.images.length := by
  by_cases hv : v.images.isEmpty
  · simp [variationWithAccessibleImagesP, hv, dbCount, upCount, urlCount]
  · simpa [variationWithAccessibleImagesP, hv] using
      convertImages_counts (variationImageUrl o) (variationImageUrl_counts o) v.images

theorem variationConvV_counts (o : StorageOracle) (v : Variation) :
    dbCount (variationWithAccessibleImagesV o v).snd = 0 ∧
    upCount (variationWithAccessibleImagesV o v).snd = 0 ∧
    urlCount (variationWithAccessibleImagesV o v).snd ≤ 2 * v.images.length := by
  by_cases hv : v.images.isEmpty
  · simp [variationWithAccessibleImagesV, hv, dbCount, upCount, urlCount]
  · simpa [variationWithAccessibleImagesV, hv] using
      convertImages_counts (variationImageUrl o) (variationImageUrl_counts o) v.images

theorem convertVariations_counts (o : StorageOracle) (vs : List Variation) :
    dbCount (convertVariations o vs).snd = 0 ∧
    upCount (convertVariations o vs).snd = 0 ∧
    urlCount (convertVariations o vs).snd ≤ 2 * sumVImgs vs := by
  induction vs with
  | nil => exact ⟨rfl, rfl, by simp [convertVariations, sumVImgs, urlCount]⟩
  | cons v rest ih =>
    have hsnd : (convertVariations o (v :: rest)).snd =
        (variationWithAccessibleImagesP o v).snd ++ (convertVariations o rest).snd := by
      simp [convertVariations]
    refine ⟨?_, ?_, ?_⟩ <;> rw [hsnd]
    · rw [dbCount_append, (variationConvP_counts o v).1, ih.1]
    · rw [upCount_append, (variationConvP_counts o v).2.1, ih.2.1]
    · rw [urlCount_append]
      have h1 := (variationConvP_counts o v).2.2
      have h2 := ih.2.2
      simp only [sumVImgs, List.map_cons, List.sum_cons] at h2 ⊢
      omega

theorem productVarConv_counts (o : StorageOracle)
    (varRes : Except DbErr (List Variation)) (p : Product) :
    dbCount (productWithVariationsConv o varRes p).snd = 1 ∧
    upCount (productWithVariationsConv o varRes p).snd = 0 ∧
    urlCount (productWithVariationsConv o varRes p).snd ≤
      2 * p.images.length + 2 * exImgsVList varRes := by
  cases varRes with
  | error e =>
    have h1 := productConv_counts o p
    unfold productWithVariationsConv
    refine ⟨?_, ?_, ?_⟩
    · rw [dbCount_append, h1.1]; rfl
    · rw [upCount_append, h1.2.1]; rfl
    · rw [urlCount_append]
      have := h1.2.2
      simp only [urlCount, List.filter, List.length_nil] at *
      omega
  | ok vs =>
    have h1 := productConv_counts o p
    have h2 := convertVariations_counts o vs
    unfold productWithVariationsConv
    refine ⟨?_, ?_, ?_⟩
    · rw [dbCount_append, dbCount_append, h1.1, h2.1]; rfl
    · rw [upCount_append, upCount_append, h1.2.1, h2.2.1]; rfl
    · rw [urlCount_append, urlCount_append]
      have e1 := h1.2.2
      have e2 := h2.2.2
      have e3 : urlCount [ExtCall.db DbOp.select "product_variations"] = 0 := rfl
      simp only [exImgsVList]
      omega

theorem runUploadsGo_counts (mk : Nat → FileUpload → String)
    (up : String → Option DbErr) (files : List FileUpload) :
    ∀ (i : Nat) (keys : List String) (calls : List ExtCall),
      dbCount (runUploadsGo mk up i files keys calls).calls = dbCount calls ∧
      urlCount (runUploadsGo mk up i files keys calls).calls = urlCount calls ∧
      upCount (runUploadsGo mk up i files keys calls).calls ≤
        upCount calls + files.length := by
  induction files with
  | nil =>
    intro i keys calls
    simp [runUploadsGo, UploadOutcome.calls]
  | cons f rest ih =>
    intro i keys calls
    simp only [runUploadsGo]
    split
    · have h2 := ih (i + 1) (keys ++ [mk i f]) (calls ++ [ExtCall.stUpload (mk i f)])
      refine ⟨?_, ?_, ?_⟩
      · rw [h2.1, dbCount_append]; rfl
      · rw [h2.2.1, urlCount_append]; rfl
      · have h3 := h2.2.2
        rw [upCount_append] at h3
        have hx : upCount [ExtCall.stUpload (mk i f)] = 1 := rfl
        simp only [List.length_cons]
        omega
    · split
      · refine ⟨?_, ?_, ?_⟩
        · simp only [UploadOutcome.calls]; rw [dbCount_append]; rfl
        · simp only [UploadOutcome.calls]; rw [urlCount_append]; rfl
        · simp only [UploadOutcome.calls]
          rw [upCount_append]
          have hx : upCount [ExtCall.stUpload (mk i f)] = 1 := rfl
          simp only [List.length_cons]
          omega
      · refine ⟨?_, ?_, ?_⟩
        · simp only [UploadOutcome.calls]; rw [dbCount_append]; rfl
        · simp only [UploadOutcome.calls]; rw [urlCount_append]; rfl
        · simp only [UploadOutcome.calls]
          rw [upCount_append]
          have hx : upCount [ExtCall.stUpload (mk i f)] = 1 := rfl
          simp only [List.length_cons]
          omega

theorem runUploads_counts (mk : Nat → FileUpload → String)
    (up : String → Option DbErr) (files : List FileUpload) :
    dbCount (runUploads mk up files).calls = 0 ∧
    urlCount (runUploads mk up files).calls = 0 ∧
    upCount (runUploads mk up files).calls ≤ files.length := by
  have h := runUploadsGo_counts mk up files 0 [] []
  refine ⟨h.1, h.2.1, ?_⟩
  have h3 := h.2.2
  have hz : upCount ([] : List ExtCall) = 0 := rfl
  rw [hz, Nat.zero_add] at h3
  exact h3

theorem runUploadsGo_success (mk : Nat → FileUpload → String)
    (up : String → Option DbErr) (h : ∀ k, up k = none)
    (files : List FileUpload) :
    ∀ (i : Nat) (keys : List String) (calls : List ExtCall),
      runUploadsGo mk up i files keys calls =
        UploadOutcome.done
          (keys ++ (files.enumFrom i).map (fun x => mk x.fst x.snd))
          (calls ++ (files.enumFrom i).map
            (fun x => ExtCall.stUpload (mk x.fst x.snd))) := by
  induction files with
  | nil =>
    intro i keys calls
    simp [runUploadsGo, List.enumFrom]
  | cons f rest ih =>
    intro i keys calls
    simp only [runUploadsGo]
    rw [h (mk i f)]
    rw [ih (i + 1) (keys ++ [mk i f]) (calls ++ [ExtCall.stUpload (mk i f)])]
    simp [List.enumFrom, List.append_assoc]

theorem runUploads_success (mk : Nat → FileUpload → String)
    (up : String → Option DbErr) (h : ∀ k, up k = none)
    (files : List FileUpload) :
    runUploads mk up files =
      UploadOutcome.done (files.enum.map (fun x => mk x.fst x.snd))
        (files.enum.map (fun x => ExtCall.stUpload (mk x.fst x.snd))) := by
  have := runUploadsGo_success mk up h files 0 [] []
  simpa [runUploads, List.enum] using this

theorem productsPost_counts (o : StorageOracle) (now : Nat) (body : ProductBody)
    (files : List FileUpload) (insertRes : Except DbErr Product)
    (up : String → Option DbErr) (updateRes : Except DbErr Product) :
    dbCount (productsPost o now body files insertRes up updateRes).snd ≤ 2 ∧
    upCount (productsPost o now body files insertRes up updateRes).snd ≤ files.length ∧
    urlCount (productsPost o now body files insertRes up updateRes).snd ≤
      2 * (exImgsP insertRes + exImgsP updateRes) := by
  unfold productsPost
  cases insertRes with
  | error e =>
    dsimp only
    exact ⟨by decide, Nat.zero_le _, Nat.zero_le _⟩
  | ok prod =>
    dsimp only
    have hc := runUploads_counts (productKey prod.id now) up files
    cases hru : runUploads (productKey prod.id now) up files with
    | failed e calls =>
      rw [hru] at hc
      simp only [UploadOutcome.calls] at hc
      simp only [hru]
      refine ⟨?_, ?_, ?_⟩
      · rw [dbCount_cons, hc.1]; decide
      · rw [upCount_cons]
        have h0 : upCount [ExtCall.db DbOp.insert "products"] = 0 := rfl
        omega
      · rw [urlCount_cons, hc.2.1]
        exact Nat.zero_le _
    | done keys calls =>
      rw [hru] at hc
      simp only [UploadOutcome.calls] at hc
      simp only [hru]
      by_cases hk : keys.isEmpty
      · have hp := productConv_counts o prod
        simp only [hk, if_true]
        refine ⟨?_, ?_, ?_⟩
        · rw [dbCount_cons, dbCount_append, hc.1, hp.1]; decide
        · rw [upCount_cons, upCount_append, hp.2.1]
          have h0 : upCount [ExtCall.db DbOp.insert "products"] = 0 := rfl
          omega
        · rw [urlCount_cons, urlCount_append, hc.2.1]
          have h1 := hp.2.2
          have h0 : urlCount [ExtCall.db DbOp.insert "products"] = 0 := rfl
          have h2 : exImgsP (Except.ok prod : Except DbErr Product) = prod.images.length := rfl
          omega
      · simp only [if_neg hk]
        cases updateRes with
        | error e2 =>
          dsimp only
          have hp := productConv_counts o prod
          refine ⟨?_, ?_, ?_⟩
          · rw [dbCount_cons, dbCount_append, dbCount_append, hc.1, hp.1]; decide
          · rw [upCount_cons, upCount_append, upCount_append, hp.2.1]
            have h0 : upCount [ExtCall.db DbOp.insert "products"] = 0 := rfl
            have h1 : upCount [ExtCall.db DbOp.update "products"] = 0 := rfl
            omega
          · rw [urlCount_cons, urlCount_append, urlCount_append, hc.2.1]
            have h1 := hp.2.2
            have h0 : urlCount [ExtCall.db DbOp.insert "products"] = 0 := rfl
            have h2 : urlCount [ExtCall.db DbOp.update "products"] = 0 := rfl
            have h3 : exImgsP (Except.ok prod : Except DbErr Product) = prod.images.length := rfl
            omega
        | ok updated =>
          dsimp only
          have hp := productConv_counts o { prod with images := updated.images }
          refine ⟨?_, ?_, ?_⟩
          · rw [dbCount_cons, dbCount_append, dbCount_append, hc.1, hp.1]; decide
          · rw [upCount_cons, upCount_append, upCount_append, hp.2.1]
            have h0 : upCount [ExtCall.db DbOp.insert "products"] = 0 := rfl
            have h1 : upCount [ExtCall.db DbOp.update "products"] = 0 := rfl
            omega
          · rw [urlCount_cons, urlCount_append, urlCount_append, hc.2.1]
            have h1 := hp.2.2
            have h0 : urlCount [ExtCall.db DbOp.insert "products"] = 0 := rfl
            have h2 : urlCount [ExtCall.db DbOp.update "products"] = 0 := rfl
            have h3 : exImgsP (Except.ok updated : Except DbErr Product) = updated.images.length := rfl
            have h4 : ({ prod with images := updated.images } : Product).images.length =
                updated.images.length := rfl
            omega

theorem productsListConv_counts (o : StorageOracle) (rows : List Product) :
    dbCount ((rows.map (productWithAccessibleImages o)).map Prod.snd).flatten = 0 ∧
    upCount ((rows.map (productWithAccessibleImages o)).map Prod.snd).flatten = 0 ∧
    urlCount ((rows.map (productWithAccessibleImages o)).map Prod.snd).flatten ≤
      2 * sumPImgs rows := by
  induction rows with
  | nil => exact ⟨rfl, rfl, by simp [sumPImgs, urlCount]⟩
  | cons p rest ih =>
    have hp := productConv_counts o p
    simp only [List.map_cons, List.flatten_cons]
    refine ⟨?_, ?_, ?_⟩
    · rw [dbCount_append, hp.1, ih.1]
    · rw [upCount_append, hp.2.1, ih.2.1]
    · rw [urlCount_append]
      have h1 := hp.2.2
      have h2 := ih.2.2
      simp only [sumPImgs, List.map_cons, List.sum_cons] at h2 ⊢
      omega

theorem variationsListConv_counts (o : StorageOracle) (vs : List Variation) :
    dbCount ((vs.map (variationWithAccessibleImagesV o)).map Prod.snd).flatten = 0 ∧
    upCount ((vs.map (variationWithAccessibleImagesV o)).map Prod.snd).flatten = 0 ∧
    urlCount ((vs.map (variationWithAccessibleImagesV o)).map Prod.snd).flatten ≤
      2 * sumVImgs vs := by
  induction vs with
  | nil => exact ⟨rfl, rfl, by simp [sumVImgs, urlCount]⟩
  | cons v rest ih =>
    have hv := variationConvV_counts o v
    simp only [List.map_cons, List.flatten_cons]
    refine ⟨?_, ?_, ?_⟩
    · rw [dbCount_append, hv.1, ih.1]
    · rw [upCount_append, hv.2.1, ih.2.1]
    · rw [urlCount_append]
      have h1 := hv.2.2
      have h2 := ih.2.2
      simp only [sumVImgs, List.map_cons, List.sum_cons] at h2 ⊢
      omega

theorem productsList_counts (o : StorageOracle) (user : Option UserPayload)
    (q : ListQuery) (selRes : Except DbErr (List Product)) :
    dbCount (productsList o user q selRes).snd ≤ 1 ∧
    upCount (productsList o user q selRes).snd = 0 ∧
    urlCount (productsList o user q selRes).snd ≤ 2 * exImgsPList selRes := by
  unfold productsList
  cases selRes with
  | error e =>
    dsimp only
    exact ⟨by decide, rfl, Nat.zero_le _⟩
  | ok rows =>
    dsimp only
    have h := productsListConv_counts o rows
    refine ⟨?_, ?_, ?_⟩
    · rw [dbCount_cons, h.1]; decide
    · rw [upCount_cons, h.2.1]; rfl
    · rw [urlCount_cons]
      have h1 := h.2.2
      have h0 : urlCount [ExtCall.db DbOp.select "products"] = 0 := rfl
      have h2 : exImgsPList (Except.ok rows : Except DbErr (List Product)) = sumPImgs rows := rfl
      omega

theorem productsGetId_counts (o : StorageOracle) (user : Option UserPayload)
    (id : String) (selRes : Except DbErr (Option Product))
    (varRes : Except DbErr (List Variation)) :
    dbCount (productsGetId o user id selRes varRes).snd ≤ 2 ∧
    upCount (productsGetId o user id selRes varRes).snd = 0 ∧
    urlCount (productsGetId o user id selRes varRes).snd ≤
      2 * exImgsPOpt selRes + 2 * exImgsVList varRes := by
  unfold productsGetId
  split
  · exact ⟨by decide, rfl, Nat.zero_le _⟩
  · cases selRes with
    | error e =>
      dsimp only
      split <;> exact ⟨by dsimp only; decide, rfl, Nat.zero_le _⟩
    | ok odata =>
      cases odata with
      | none =>
        dsimp only
        exact ⟨by decide, rfl, Nat.zero_le _⟩
      | some data =>
        dsimp only
        have h := productVarConv_counts o varRes data
        refine ⟨?_, ?_, ?_⟩
        · rw [dbCount_cons, h.1]; decide
        · rw [upCount_cons, h.2.1]; rfl
        · rw [urlCount_cons]
          have h1 := h.2.2
          have h0 : urlCount [ExtCall.db DbOp.select "products"] = 0 := rfl
          have h2 : exImgsPOpt (Except.ok (some data) : Except DbErr (Option Product)) =
              data.images.length := rfl
          omega

theorem productsPutPrep_counts (now : Nat) (id : String) (body : ProductBody)
    (files : List FileUpload) (up : String → Option DbErr)
    (selImages : Option Product) :
    dbCount (productsPutPrep now id body files up selImages).calls ≤ 1 ∧
    urlCount (productsPutPrep now id body files up selImages).calls = 0 ∧
    upCount (productsPutPrep now id body files up selImages).calls ≤ files.length := by
  unfold productsPutPrep
  split
  · exact ⟨Nat.zero_le _, rfl, Nat.zero_le _⟩
  · have hc := runUploads_counts (productKey id now) up files
    cases hru : runUploads (productKey id now) up files with
    | failed e calls =>
      rw [hru] at hc
      simp only [UploadOutcome.calls] at hc
      simp only [hru, PutPrep.calls]
      exact ⟨by rw [hc.1]; decide, hc.2.1, hc.2.2⟩
    | done keys calls =>
      rw [hru] at hc
      simp only [UploadOutcome.calls] at hc
      simp only [hru]
      split
      · simp only [PutPrep.calls]
        exact ⟨by rw [hc.1]; decide, hc.2.1, hc.2.2⟩
      · simp only [PutPrep.calls]
        refine ⟨?_, ?_, ?_⟩
        · rw [dbCount_append, hc.1]; decide
        · rw [urlCount_append, hc.2.1]; rfl
        · rw [upCount_append]
          have h0 : upCount [ExtCall.db DbOp.select "products"] = 0 := rfl
          have h1 := hc.2.2
          omega

theorem productsPut_counts (o : StorageOracle) (now : Nat) (id : String)
    (body : ProductBody) (files : List FileUpload) (up : String → Option DbErr)
    (selImages : Option Product) (updateRes : Except DbErr Product) :
    dbCount (productsPut o now id body files up selImages updateRes).snd ≤ 2 ∧
    upCount (productsPut o now id body files up selImages updateRes).snd ≤ files.length ∧
    urlCount (productsPut o now id body files up selImages updateRes).snd ≤
      2 * exImgsP updateRes := by
  unfold productsPut
  have hp := productsPutPrep_counts now id body files up selImages
  cases hpr : productsPutPrep now id body files up selImages with
  | failed e calls =>
    rw [hpr] at hp
    simp only [PutPrep.calls] at hp
    simp only [hpr]
    exact ⟨by omega, hp.2.2, by rw [hp.2.1]; exact Nat.zero_le _⟩
  | ready changes calls =>
    rw [hpr] at hp
    simp only [PutPrep.calls] at hp
    simp only [hpr]
    cases updateRes with
    | error e =>
      dsimp only
      refine ⟨?_, ?_, ?_⟩
      · rw [dbCount_append]
        have h0 : dbCount [ExtCall.db DbOp.update "products"] = 1 := rfl
        omega
      · rw [upCount_append]
        have h0 : upCount [ExtCall.db DbOp.update "products"] = 0 := rfl
        have h1 := hp.2.2
        omega
      · rw [urlCount_append, hp.2.1]
        exact Nat.zero_le _
    | ok data =>
      dsimp only
      have hcv := productConv_counts o data
      refine ⟨?_, ?_, ?_⟩
      · rw [dbCount_append, dbCount_append, hcv.1]
        have h0 : dbCount [ExtCall.db DbOp.update "products"] = 1 := rfl
        omega
      · rw [upCount_append, upCount_append, hcv.2.1]
        have h0 : upCount [ExtCall.db DbOp.update "products"] = 0 := rfl
        have h1 := hp.2.2
        omega
      · rw [urlCount_append, urlCount_append, hp.2.1]
        have h0 : urlCount [ExtCall.db DbOp.update "products"] = 0 := rfl
        have h1 := hcv.2.2
        have h2 : exImgsP (Except.ok data : Except DbErr Product) = data.images.length := rfl
        omega

theorem productsDelete_counts (delRes : Option DbErr) :
    dbCount (productsDelete delRes).snd = 1 ∧
    upCount (productsDelete delRes).snd = 0 ∧
    urlCount (productsDelete delRes).snd = 0 := by
  cases delRes <;> exact ⟨rfl, rfl, rfl⟩

theorem variationsPost_counts (o : StorageOracle) (now : Nat)
    (body : VariationBody) (files : List FileUpload)
    (up : String → Option DbErr) (insertRes : Except DbErr Variation) :
    dbCount (variationsPost o now body files up insertRes).snd ≤ 1 ∧
    upCount (variationsPost o now body files up insertRes).snd ≤ files.length ∧
    urlCount (variationsPost o now body files up insertRes).snd ≤
      2 * exImgsV insertRes := by
  unfold variationsPost
  split
  · exact ⟨by decide, Nat.zero_le _, Nat.zero_le _⟩
  · have hc := runUploads_counts (variationKey (body.product_id.getD "") now) up files
    cases hru : runUploads (variationKey (body.product_id.getD "") now) up files with
    | failed e calls =>
      rw [hru] at hc
      simp only [UploadOutcome.calls] at hc
      simp only [hru]
      exact ⟨by rw [hc.1]; decide, hc.2.2, by rw [hc.2.1]; exact Nat.zero_le _⟩
    | done keys calls =>
      rw [hru] at hc
      simp only [UploadOutcome.calls] at hc
      simp only [hru]
      cases insertRes with
      | error e =>
        dsimp only
        refine ⟨?_, ?_, ?_⟩
        · rw [dbCount_append, hc.1]; decide
        · rw [upCount_append]
          have h0 : upCount [ExtCall.db DbOp.insert "product_variations"] = 0 := rfl
          have h1 := hc.2.2
          omega
        · rw [urlCount_append, hc.2.1]
          exact Nat.zero_le _
      | ok variation =>
        dsimp only
        have hcv := variationConvV_counts o variation
        refine ⟨?_, ?_, ?_⟩
        · rw [dbCount_append, dbCount_append, hc.1, hcv.1]; decide
        · rw [upCount_append, upCount_append, hcv.2.1]
          have h0 : upCount [ExtCall.db DbOp.insert "product_variations"] = 0 := rfl
          have h1 := hc.2.2
          omega
        · rw [urlCount_append, urlCount_append, hc.2.1]
          have h0 : urlCount [ExtCall.db DbOp.insert "product_variations"] = 0 := rfl
          have h1 := hcv.2.2
          have h2 : exImgsV (Except.ok variation : Except DbErr Variation) =
              variation.images.length := rfl
          omega

theorem variationsGetByProduct_counts (o : StorageOracle) (pid : String)
    (selRes : Except DbErr (List Variation)) :
    dbCount (variationsGetByProduct o pid selRes).snd ≤ 1 ∧
    upCount (variationsGetByProduct o pid selRes).snd = 0 ∧
    urlCount (variationsGetByProduct o pid selRes).snd ≤ 2 * exImgsVList selRes := by
  unfold variationsGetByProduct
  split
  · exact ⟨by decide, rfl, Nat.zero_le _⟩
  · cases selRes with
    | error e =>
      dsimp only
      exact ⟨by decide, rfl, Nat.zero_le _⟩
    | ok vs =>
      dsimp only
      have h := variationsListConv_counts o vs
      refine ⟨?_, ?_, ?_⟩
      · rw [dbCount_cons, h.1]; decide
      · rw [upCount_cons, h.2.1]; rfl
      · rw [urlCount_cons]
        have h1 := h.2.2
        have h0 : urlCount [ExtCall.db DbOp.select "product_variations"] = 0 := rfl
        have h2 : exImgsVList (Except.ok vs : Except DbErr (List Variation)) = sumVImgs vs := rfl
        omega

theorem variationsPutPrep_counts (now : Nat) (id : String) (body : VariationBody)
    (files : List FileUpload) (up : String → Option DbErr)
    (selPid : Option Variation) (selImages : Option Variation) :
    dbCount (variationsPutPrep now id body files up selPid selImages).calls ≤ 2 ∧
    urlCount (variationsPutPrep now id body files up selPid selImages).calls = 0 ∧
    upCount (variationsPutPrep now id body files up selPid selImages).calls ≤
      files.length := by
  unfold variationsPutPrep
  split
  · exact ⟨Nat.zero_le _, rfl, Nat.zero_le _⟩
  · dsimp only
    set pid :=
      match selPid with
      | none => "unknown"
      | some r => if r.product_id = "" then "unknown" else r.product_id with hpid
    have hc := runUploads_counts (variationKey pid now) up files
    cases hru : runUploads (variationKey pid now) up files with
    | failed e calls =>
      rw [hru] at hc
      simp only [UploadOutcome.calls] at hc
      simp only [hru, VPutPrep.calls]
      refine ⟨?_, ?_, ?_⟩
      · rw [dbCount_append, hc.1]; decide
      · rw [urlCount_append, hc.2.1]; rfl
      · rw [upCount_append]
        have h0 : upCount [ExtCall.db DbOp.select "product_variations"] = 0 := rfl
        have h1 := hc.2.2
        omega
    | done keys calls =>
      rw [hru] at hc
      simp only [UploadOutcome.calls] at hc
      simp only [hru]
      split
      · simp only [VPutPrep.calls]
        refine ⟨?_, ?_, ?_⟩
        · rw [dbCount_append, hc.1]; decide
        · rw [urlCount_append, hc.2.1]; rfl
        · rw [upCount_append]
          have h0 : upCount [ExtCall.db DbOp.select "product_variations"] = 0 := rfl
          have h1 := hc.2.2
          omega
      · simp only [VPutPrep.calls]
        refine ⟨?_, ?_, ?_⟩
        · rw [dbCount_append, dbCount_append, hc.1]; decide
        · rw [urlCount_append, urlCount_append, hc.2.1]; rfl
        · rw [upCount_append, upCount_append]
          have h0 : upCount [ExtCall.db DbOp.select "product_variations"] = 0 := rfl
          have h1 := hc.2.2
          omega

theorem variationsPut_counts (o : StorageOracle) (now : Nat) (id : String)
    (body : VariationBody) (files : List FileUpload)
    (up : String → Option DbErr) (selPid : Option Variation)
    (selImages : Option Variation) (updateRes : Except DbErr Variation) :
    dbCount (variationsPut o now id body files up selPid selImages updateRes).snd ≤ 3 ∧
    upCount (variationsPut o now id body files up selPid selImages updateRes).snd ≤
      files.length ∧
    urlCount (variationsPut o now id body files up selPid selImages updateRes).snd ≤
      2 * exImgsV updateRes := by
  unfold variationsPut
  have hp := variationsPutPrep_counts now id body files up selPid selImages
  cases hpr : variationsPutPrep now id body files up selPid selImages with
  | failed e calls =>
    rw [hpr] at hp
    simp only [VPutPrep.calls] at hp
    simp only [hpr]
    exact ⟨by omega, hp.2.2, by rw [hp.2.1]; exact Nat.zero_le _⟩
  | ready changes calls =>
    rw [hpr] at hp
    simp only [VPutPrep.calls] at hp
    simp only [hpr]
    cases updateRes with
    | error e =>
      dsimp only
      refine ⟨?_, ?_, ?_⟩
      · rw [dbCount_append]
        have h0 : dbCount [ExtCall.db DbOp.update "product_variations"] = 1 := rfl
        omega
      · rw [upCount_append]
        have h0 : upCount [ExtCall.db DbOp.update "product_variations"] = 0 := rfl
        have h1 := hp.2.2
        omega
      · rw [urlCount_append, hp.2.1]
        exact Nat.zero_le _
    | ok variation =>
      dsimp only
      have hcv := variationConvV_counts o variation
      refine ⟨?_, ?_, ?_⟩
      · rw [dbCount_append, dbCount_append, hcv.1]
        have h0 : dbCount [ExtCall.db DbOp.update "product_variations"] = 1 := rfl
        omega
      · rw [upCount_append, upCount_append, hcv.2.1]
        have h0 : upCount [ExtCall.db DbOp.update "product_variations"] = 0 := rfl
        have h1 := hp.2.2
        omega
      · rw [urlCount_append, urlCount_append, hp.2.1]
        have h0 : urlCount [ExtCall.db DbOp.update "product_variations"] = 0 := rfl
        have h1 := hcv.2.2
        have h2 : exImgsV (Except.ok variation : Except DbErr Variation) =
            variation.images.length := rfl
        omega

theorem variationsDelete_counts (delRes : Option DbErr) :
    dbCount (variationsDelete delRes).snd = 1 ∧
    upCount (variationsDelete delRes).snd = 0 ∧
    urlCount (variationsDelete delRes).snd = 0 := by
  cases delRes <;> exact ⟨rfl, rfl, rfl⟩

theorem dbCount_nil : dbCount [] = 0 := rfl

theorem upCount_nil : upCount [] = 0 := rfl

theorem urlCount_nil : urlCount [] = 0 := rfl

theorem dbCount_cons_db (op : DbOp) (t : String) (l : List ExtCall) :
    dbCount (ExtCall.db op t :: l) = dbCount l + 1 := by
  simp [dbCount, List.filter_cons]

theorem dbCount_cons_upl (k : String) (l : List ExtCall) :
    dbCount (ExtCall.stUpload k :: l) = dbCount l := by
  simp [dbCount, List.filter_cons]

theorem dbCount_cons_pub (k : String) (l : List ExtCall) :
    dbCount (ExtCall.stPublicUrl k :: l) = dbCount l := by
  simp [dbCount, List.filter_cons]

theorem dbCount_cons_sgn (k : String) (l : List ExtCall) :
    dbCount (ExtCall.stSignedUrl k :: l) = dbCount l := by
  simp [dbCount, List.filter_cons]

theorem upCount_cons_db (op : DbOp) (t : String) (l : List ExtCall) :
    upCount (ExtCall.db op t :: l) = upCount l := by
  simp [upCount, List.filter_cons]

theorem upCount_cons_upl (k : String) (l : List ExtCall) :
    upCount (ExtCall.stUpload k :: l) = upCount l + 1 := by
  simp [upCount, List.filter_cons]

theorem upCount_cons_pub (k : String) (l : List ExtCall) :
    upCount (ExtCall.stPublicUrl k :: l) = upCount l := by
  simp [upCount, List.filter_cons]

theorem upCount_cons_sgn (k : String) (l : List ExtCall) :
    upCount (ExtCall.stSignedUrl k :: l) = upCount l := by
  simp [upCount, List.filter_cons]

theorem urlCount_cons_db (op : DbOp) (t : String) (l : List ExtCall) :
    urlCount (ExtCall.db op t :: l) = urlCount l := by
  simp [urlCount, List.filter_cons]

theorem urlCount_cons_upl (k : String) (l : List ExtCall) :
    urlCount (ExtCall.stUpload k :: l) = urlCount l := by
  simp [urlCount, List.filter_cons]

theorem urlCount_cons_pub (k : String) (l : List ExtCall) :
    urlCount (ExtCall.stPublicUrl k :: l) = urlCount l + 1 := by
  simp [urlCount, List.filter_cons]

theorem urlCount_cons_sgn (k : String) (l : List ExtCall) :
    urlCount (ExtCall.stSignedUrl k :: l) = urlCount l + 1 := by
  simp [urlCount, List.filter_cons]

theorem settingsGet_counts (selRes : Except DbErr (List SettingRow)) :
    dbCount (settingsGet selRes).snd = 2 ∧
    upCount (settingsGet selRes).snd = 0 ∧
    urlCount (settingsGet selRes).snd = 0 := by
  unfold settingsGet
  cases selRes with
  | error e =>
    dsimp only
    split <;> exact ⟨rfl, rfl, rfl⟩
  | ok rows => exact ⟨rfl, rfl, rfl⟩

theorem settingsGetKey_counts (key : String)
    (selRes : Except DbErr (Option SettingRow)) :
    dbCount (settingsGetKey key selRes).snd = 2 ∧
    upCount (settingsGetKey key selRes).snd = 0 ∧
    urlCount (settingsGetKey key selRes).snd = 0 := by
  unfold settingsGetKey
  cases selRes with
  | error e => exact ⟨rfl, rfl, rfl⟩
  | ok os => cases os <;> exact ⟨rfl, rfl, rfl⟩

theorem settingsPut_counts (key : String) (value : Option String)
    (updateRes : Except DbErr SettingRow) (insertRes : Except DbErr SettingRow) :
    dbCount (settingsPut key value updateRes insertRes).snd ≤ 3 ∧
    upCount (settingsPut key value updateRes insertRes).snd = 0 ∧
    urlCount (settingsPut key value updateRes insertRes).snd = 0 := by
  unfold settingsPut
  split
  · exact ⟨by first | decide | (dsimp only; decide), rfl, rfl⟩
  · dsimp only
    cases updateRes with
    | ok s => exact ⟨by first | decide | (dsimp only; decide), rfl, rfl⟩
    | error e =>
      dsimp only
      split
      · cases insertRes with
        | error ce => exact ⟨by first | decide | (dsimp only; decide), rfl, rfl⟩
        | ok ns => exact ⟨by first | decide | (dsimp only; decide), rfl, rfl⟩
      · exact ⟨by first | decide | (dsimp only; decide), rfl, rfl⟩

theorem settingsUpload_counts (o : StorageOracle) (now : Nat) (key : String)
    (file : Option FileUpload) (selRes : Option SettingRow)
    (upErr : Option DbErr) (updateRes : Except DbErr SettingRow) :
    dbCount (settingsUpload o now key file selRes upErr updateRes).snd ≤ 3 ∧
    upCount (settingsUpload o now key file selRes upErr updateRes).snd ≤ 1 ∧
    urlCount (settingsUpload o now key file selRes upErr updateRes).snd ≤ 1 := by
  unfold settingsUpload
  cases file with
  | none => exact ⟨by first | decide | (dsimp only; decide), by first | decide | (dsimp only; decide), by first | decide | (dsimp only; decide)⟩
  | some f =>
    dsimp only
    cases selRes with
    | none => exact ⟨by first | decide | (dsimp only; decide), by first | decide | (dsimp only; decide), by first | decide | (dsimp only; decide)⟩
    | some s0 =>
      dsimp only
      cases upErr with
      | some e =>
        dsimp only
        split <;>
          refine ⟨?_, ?_, ?_⟩ <;>
            simp [settingsProbe, dbCount_cons_db, dbCount_cons_upl, dbCount_nil,
              upCount_cons_db, upCount_cons_upl, upCount_nil,
              urlCount_cons_db, urlCount_cons_upl, urlCount_nil]
      | none =>
        dsimp only
        cases updateRes with
        | error e =>
          refine ⟨?_, ?_, ?_⟩ <;>
            simp [settingsProbe, dbCount_cons_db, dbCount_cons_upl, dbCount_cons_pub,
              dbCount_nil, upCount_cons_db, upCount_cons_upl, upCount_cons_pub,
              upCount_nil, urlCount_cons_db, urlCount_cons_upl, urlCount_cons_pub,
              urlCount_nil]
        | ok s =>
          refine ⟨?_, ?_, ?_⟩ <;>
            simp [settingsProbe, dbCount_cons_db, dbCount_cons_upl, dbCount_cons_pub,
              dbCount_nil, upCount_cons_db, upCount_cons_upl, upCount_cons_pub,
              upCount_nil, urlCount_cons_db, urlCount_cons_upl, urlCount_cons_pub,
              urlCount_nil]

theorem settingsVideoUpload_counts (o : StorageOracle) (now : Nat)
    (file : Option FileUpload) (upErr : Option DbErr)
    (updateRes : Except DbErr SettingRow) (insertRes : Except DbErr SettingRow) :
    dbCount (settingsVideoUpload o now file upErr updateRes insertRes).snd ≤ 3 ∧
    upCount (settingsVideoUpload o now file upErr updateRes insertRes).snd ≤ 1 ∧
    urlCount (settingsVideoUpload o now file upErr updateRes insertRes).snd ≤ 1 := by
  unfold settingsVideoUpload
  cases file with
  | none => exact ⟨by first | decide | (dsimp only; decide), by first | decide | (dsimp only; decide), by first | decide | (dsimp only; decide)⟩
  | some f =>
    dsimp only
    split
    · exact ⟨by first | decide | (dsimp only; decide), by first | decide | (dsimp only; decide), by first | decide | (dsimp only; decide)⟩
    · cases upErr with
      | some e =>
        refine ⟨?_, ?_, ?_⟩ <;>
          simp [settingsProbe, dbCount_cons_db, dbCount_cons_upl, dbCount_nil,
            upCount_cons_db, upCount_cons_upl, upCount_nil,
            urlCount_cons_db, urlCount_cons_upl, urlCount_nil]
      | none =>
        dsimp only
        cases updateRes with
        | ok s =>
          refine ⟨?_, ?_, ?_⟩ <;>
            simp [settingsProbe, dbCount_cons_db, dbCount_cons_upl, dbCount_cons_pub,
              dbCount_nil, upCount_cons_db, upCount_cons_upl, upCount_cons_pub,
              upCount_nil, urlCount_cons_db, urlCount_cons_upl, urlCount_cons_pub,
              urlCount_nil]
        | error e =>
          dsimp only
          split
          · cases insertRes with
            | error ce =>
              refine ⟨?_, ?_, ?_⟩ <;>
                simp [settingsProbe, dbCount_cons_db, dbCount_cons_upl, dbCount_cons_pub,
                  dbCount_nil, upCount_cons_db, upCount_cons_upl, upCount_cons_pub,
                  upCount_nil, urlCount_cons_db, urlCount_cons_upl, urlCount_cons_pub,
                  urlCount_nil]
            | ok ns =>
              refine ⟨?_, ?_, ?_⟩ <;>
                simp [settingsProbe, dbCount_cons_db, dbCount_cons_upl, dbCount_cons_pub,
                  dbCount_nil, upCount_cons_db, upCount_cons_upl, upCount_cons_pub,
                  upCount_nil, urlCount_cons_db, urlCount_cons_upl, urlCount_cons_pub,
                  urlCount_nil]
          · refine ⟨?_, ?_, ?_⟩ <;>
              simp [settingsProbe, dbCount_cons_db, dbCount_cons_upl, dbCount_cons_pub,
                dbCount_nil, upCount_cons_db, upCount_cons_upl, upCount_cons_pub,
                upCount_nil, urlCount_cons_db, urlCount_cons_upl, urlCount_cons_pub,
                urlCount_nil]

theorem settingsInit_counts (selRes : Option (List SettingRow))
    (insertErr : Option DbErr) :
    dbCount (settingsInit selRes insertErr).snd ≤ 3 ∧
    upCount (settingsInit selRes insertErr).snd = 0 ∧
    urlCount (settingsInit selRes insertErr).snd = 0 := by
  unfold settingsInit
  dsimp only
  split
  · exact ⟨by first | decide | (dsimp only; decide), rfl, rfl⟩
  · cases insertErr with
    | some e => exact ⟨by first | decide | (dsimp only; decide), rfl, rfl⟩
    | none => exact ⟨by first | decide | (dsimp only; decide), rfl, rfl⟩

/-- C1 (amended): every route handler performs at most three database
operations while handling a request (zero when validation fails before the
first call), with object-storage uploads possibly interleaved between
them, before mapping the result to a JSON response. The original claim of
"a single database operation" is refuted by `C1_counterexample`. -/
theorem C1_handlers_at_most_three_db_ops :
    (∀ o now body files insertRes up updateRes,
      dbCount (productsPost o now body files insertRes up updateRes).snd ≤ 3) ∧
    (∀ o user q selRes, dbCount (productsList o user q selRes).snd ≤ 3) ∧
    (∀ o user id selRes varRes,
      dbCount (productsGetId o user id selRes varRes).snd ≤ 3) ∧
    (∀ o now id body files up selImages updateRes,
      dbCount (productsPut o now id body files up selImages updateRes).snd ≤ 3) ∧
    (∀ delRes, dbCount (productsDelete delRes).snd ≤ 3) ∧
    (∀ o now body files up insertRes,
      dbCount (variationsPost o now body files up insertRes).snd ≤ 3) ∧
    (∀ o pid selRes, dbCount (variationsGetByProduct o pid selRes).snd ≤ 3) ∧
    (∀ o now id body files up selPid selImages updateRes,
      dbCount (variationsPut o now id body files up selPid selImages updateRes).snd ≤ 3) ∧
    (∀ delRes, dbCount (variationsDelete delRes).snd ≤ 3) ∧
    (∀ selRes, dbCount (settingsGet selRes).snd ≤ 3) ∧
    (∀ key selRes, dbCount (settingsGetKey key selRes).snd ≤ 3) ∧
    (∀ key value updateRes insertRes,
      dbCount (settingsPut key value updateRes insertRes).snd ≤ 3) ∧
    (∀ o now key file selRes upErr updateRes,
      dbCount (settingsUpload o now key file selRes upErr updateRes).snd ≤ 3) ∧
    (∀ o now file upErr updateRes insertRes,
      dbCount (settingsVideoUpload o now file upErr updateRes insertRes).snd ≤ 3) ∧
    (∀ selRes insertErr, dbCount (settingsInit selRes insertErr).snd ≤ 3) := by
  refine ⟨?_, ?_, ?_, ?_, ?_, ?_, ?_, ?_, ?_, ?_, ?_, ?_, ?_, ?_, ?_⟩
  · intro o now body files insertRes up updateRes
    have h := (productsPost_counts o now body files insertRes up updateRes).1
    omega
  · intro o user q selRes
    have h := (productsList_counts o user q selRes).1
    omega
  · intro o user id selRes varRes
    have h := (productsGetId_counts o user id selRes varRes).1
    omega
  · intro o now id body files up selImages updateRes
    have h := (productsPut_counts o now id body files up selImages updateRes).1
    omega
  · intro delRes
    have h := (productsDelete_counts delRes).1
    omega
  · intro o now body files up insertRes
    have h := (variationsPost_counts o now body files up insertRes).1
    omega
  · intro o pid selRes
    have h := (variationsGetByProduct_counts o pid selRes).1
    omega
  · intro o now id body files up selPid selImages updateRes
    have h := (variationsPut_counts o now id body files up selPid selImages updateRes).1
    omega
  · intro delRes
    have h := (variationsDelete_counts delRes).1
    omega
  · intro selRes
    have h := (settingsGet_counts selRes).1
    omega
  · intro key selRes
    have h := (settingsGetKey_counts key selRes).1
    omega
  · intro key value updateRes insertRes
    have h := (settingsPut_counts key value updateRes insertRes).1
    omega
  · intro o now key file selRes upErr updateRes
    have h := (settingsUpload_counts o now key file selRes upErr updateRes).1
    omega
  · intro o now file upErr updateRes insertRes
    have h := (settingsVideoUpload_counts o now file upErr updateRes insertRes).1
    omega
  · intro selRes insertErr
    have h := (settingsInit_counts selRes insertErr).1
    omega

/-- C1 counterexample: a successful `GET /api/products/:id` performs two
database selects (the product row and its variations), not a single
database operation as the claim states. -/
theorem C1_counterexample :
    dbCount (productsGetId pubOracle none "7"
      (Except.ok (some sampleProduct)) (Except.ok [])).snd = 2 ∧
    dbCount (productsGetId pubOracle none "7"
      (Except.ok (some sampleProduct)) (Except.ok [])).snd ≠ 1 := by
  exact ⟨by decide, by decide⟩

/-- C3 (amended): every route makes at most three database calls per
request (two for each product route, three for the variation update and
the settings routes); its remaining external calls are storage uploads,
at most one per uploaded file, and image-URL calls, at most two per
stored image key returned by the database. The original claim of "at most
two calls" is refuted by `C3_counterexample`. -/
theorem C3_handlers_linear_call_bounds :
    (∀ o now body files insertRes up updateRes,
      dbCount (productsPost o now body files insertRes up updateRes).snd ≤ 2 ∧
      upCount (productsPost o now body files insertRes up updateRes).snd ≤ files.length ∧
      urlCount (productsPost o now body files insertRes up updateRes).snd ≤
        2 * (exImgsP insertRes + exImgsP updateRes)) ∧
    (∀ o user q selRes,
      dbCount (productsList o user q selRes).snd ≤ 1 ∧
      upCount (productsList o user q selRes).snd = 0 ∧
      urlCount (productsList o user q selRes).snd ≤ 2 * exImgsPList selRes) ∧
    (∀ o user id selRes varRes,
      dbCount (productsGetId o user id selRes varRes).snd ≤ 2 ∧
      upCount (productsGetId o user id selRes varRes).snd = 0 ∧
      urlCount (productsGetId o user id selRes varRes).snd ≤
        2 * exImgsPOpt selRes + 2 * exImgsVList varRes) ∧
    (∀ o now id body files up selImages updateRes,
      dbCount (productsPut o now id body files up selImages updateRes).snd ≤ 2 ∧
      upCount (productsPut o now id body files up selImages updateRes).snd ≤ files.length ∧
      urlCount (productsPut o now id body files up selImages updateRes).snd ≤
        2 * exImgsP updateRes) ∧
    (∀ delRes,
      dbCount (productsDelete delRes).snd = 1 ∧
      upCount (productsDelete delRes).snd = 0 ∧
      urlCount (productsDelete delRes).snd = 0) ∧
    (∀ o now body files up insertRes,
      dbCount (variationsPost o now body files up insertRes).snd ≤ 1 ∧
      upCount (variationsPost o now body files up insertRes).snd ≤ files.length ∧
      urlCount (variationsPost o now body files up insertRes).snd ≤
        2 * exImgsV insertRes) ∧
    (∀ o pid selRes,
      dbCount (variationsGetByProduct o pid selRes).snd ≤ 1 ∧
      upCount (variationsGetByProduct o pid selRes).snd = 0 ∧
      urlCount (variationsGetByProduct o pid selRes).snd ≤ 2 * exImgsVList selRes) ∧
    (∀ o now id body files up selPid selImages updateRes,
      dbCount (variationsPut o now id body files up selPid selImages updateRes).snd ≤ 3 ∧
      upCount (variationsPut o now id body files up selPid selImages updateRes).snd ≤
        files.length ∧
      urlCount (variationsPut o now id body files up selPid selImages updateRes).snd ≤
        2 * exImgsV updateRes) ∧
    (∀ delRes,
      dbCount (variationsDelete delRes).snd = 1 ∧
      upCount (variationsDelete delRes).snd = 0 ∧
      urlCount (variationsDelete delRes).snd = 0) ∧
    (∀ selRes,
      dbCount (settingsGet selRes).snd = 2 ∧
      upCount (settingsGet selRes).snd = 0 ∧
      urlCount (settingsGet selRes).snd = 0) ∧
    (∀ key selRes,
      dbCount (settingsGetKey key selRes).snd = 2 ∧
      upCount (settingsGetKey key selRes).snd = 0 ∧
      urlCount (settingsGetKey key selRes).snd = 0) ∧
    (∀ key value updateRes insertRes,
      dbCount (settingsPut key value updateRes insertRes).snd ≤ 3 ∧
      upCount (settingsPut key value updateRes insertRes).snd = 0 ∧
      urlCount (settingsPut key value updateRes insertRes).snd = 0) ∧
    (∀ o now key file selRes upErr updateRes,
      dbCount (settingsUpload o now key file selRes upErr updateRes).snd ≤ 3 ∧
      upCount (settingsUpload o now key file selRes upErr updateRes).snd ≤ 1 ∧
      urlCount (settingsUpload o now key file selRes upErr updateRes).snd ≤ 1) ∧
    (∀ o now file upErr updateRes insertRes,
      dbCount (settingsVideoUpload o now file upErr updateRes insertRes).snd ≤ 3 ∧
      upCount (settingsVideoUpload o now file upErr updateRes insertRes).snd ≤ 1 ∧
      urlCount (settingsVideoUpload o now file upErr updateRes insertRes).snd ≤ 1) ∧
    (∀ selRes insertErr,
      dbCount (settingsInit selRes insertErr).snd ≤ 3 ∧
      upCount (settingsInit selRes insertErr).snd = 0 ∧
      urlCount (settingsInit selRes insertErr).snd = 0) :=
  ⟨productsPost_counts, productsList_counts, productsGetId_counts, productsPut_counts,
    productsDelete_counts, variationsPost_counts, variationsGetByProduct_counts,
    variationsPut_counts, variationsDelete_counts, settingsGet_counts,
    settingsGetKey_counts, settingsPut_counts, settingsUpload_counts,
    settingsVideoUpload_counts, settingsInit_counts⟩

/-- C3 counterexample: a successful `POST /api/products` with two image
files makes six external calls (one insert, two uploads, one update and
two public-URL calls), four of them against the database / storage
upload API alone — more than the two the claim allows. -/
theorem C3_counterexample :
    (productsPost pubOracle 1 {} [sampleFile, sampleFile]
        (Except.ok sampleProduct) (fun _ => none)
        (Except.ok sampleProductImgs)).snd.length = 6 ∧
    ¬ (productsPost pubOracle 1 {} [sampleFile, sampleFile]
        (Except.ok sampleProduct) (fun _ => none)
        (Except.ok sampleProductImgs)).snd.length ≤ 2 := by
  exact ⟨by decide, by decide⟩

/-- C2 (amended): for product image keys, `makeAccessibleUrl` is the
claimed two-branch fallback — on a nonempty key that is not already an
http(s) URL it makes exactly one public-URL call when that call yields a
URL, and exactly one public-URL call followed by exactly one signed-URL
call (no retry) when it does not. Variation image keys, however, get
only the public-URL call, never the signed-URL fallback (see
`C2_counterexample`), and keys already holding URLs get no storage call. -/
theorem C2_two_branch_fallback (o : StorageOracle) (key : String)
    (hk : key ≠ "") (hurl : isHttpUrl key = false) :
    ((optTruthy (o.pub key).dataPublicUrl || optTruthy (o.pub key).publicURL) = true →
      (makeAccessibleUrl o key).snd = [ExtCall.stPublicUrl key]) ∧
    ((optTruthy (o.pub key).dataPublicUrl || optTruthy (o.pub key).publicURL) = false →
      (makeAccessibleUrl o key).snd =
        [ExtCall.stPublicUrl key, ExtCall.stSignedUrl key]) ∧
    ExtCall.stSignedUrl key ∉ (variationImageUrl o key).snd := by
  refine ⟨?_, ?_, ?_⟩
  · intro hpub
    unfold makeAccessibleUrl
    rw [if_neg hk, if_neg (by simp [hurl])]
    dsimp only
    by_cases hd : optTruthy (o.pub key).dataPublicUrl
    · rw [if_pos hd]
    · have ho : optTruthy (o.pub key).publicURL = true := by
        rcases Bool.or_eq_true_iff.mp hpub with h | h
        · exact absurd h hd
        · exact h
      rw [if_neg hd, if_pos ho]
  · intro hpub
    have hd : optTruthy (o.pub key).dataPublicUrl = false ∧
        optTruthy (o.pub key).publicURL = false := by
      constructor <;> revert hpub <;> cases optTruthy (o.pub key).dataPublicUrl <;>
        cases optTruthy (o.pub key).publicURL <;> simp
    unfold makeAccessibleUrl
    rw [if_neg hk, if_neg (by simp [hurl])]
    dsimp only
    rw [if_neg (by simp [hd.1]), if_neg (by simp [hd.2])]
    cases o.signed key with
    | error e => rfl
    | ok s0 =>
      dsimp only
      split <;> rfl
  · rw [variationImageUrl_trace]
    simp

/-- C2 counterexample: for a stored variation image key whose public-URL
call yields no URL, the code returns `null` and never makes the
signed-URL call, even though the signed-URL call of the same oracle
would have produced a URL — the claimed fallback does not happen for
variation image keys. -/
theorem C2_counterexample :
    (variationImageUrl noPubOracle "variations/2/1_0.jpg").fst = none ∧
    (variationImageUrl noPubOracle "variations/2/1_0.jpg").snd =
      [ExtCall.stPublicUrl "variations/2/1_0.jpg"] ∧
    noPubOracle.signed "variations/2/1_0.jpg" =
      Except.ok (some "http://signed.example/x") ∧
    (makeAccessibleUrl noPubOracle "variations/2/1_0.jpg").fst =
      some "http://signed.example/x" := by
  exact ⟨by decide, by decide, rfl, by decide⟩

/-- C2 witness: instantiation of `C2_two_branch_fallback` at a concrete
key and oracle, with both hypotheses discharged. -/
theorem C2_witness :
    (makeAccessibleUrl noPubOracle "k").snd =
      [ExtCall.stPublicUrl "k", ExtCall.stSignedUrl "k"] :=
  (C2_two_branch_fallback noPubOracle "k" (by decide) (by decide)).2.1 (by decide)

theorem head?_mem {α : Type} (l : List α) (u : α) (h : l.head? = some u) :
    u ∈ l := by
  cases l with
  | nil => cases h
  | cons a t =>
    injection h with h2
    subst h2
    exact List.mem_cons_self a t

theorem pubFallback_some (r : PubUrlResp) (u : String)
    (h : pubFallback r = some u) :
    r.dataPublicUrl = some u ∨ r.publicURL = some u := by
  unfold pubFallback jsOr at h
  by_cases h1 : optTruthy r.dataPublicUrl
  · rw [if_pos h1] at h
    exact Or.inl h
  · rw [if_neg h1] at h
    by_cases h2 : optTruthy r.publicURL
    · rw [if_pos h2] at h
      exact Or.inr h
    · rw [if_neg h2] at h
      cases h

theorem makeAccessibleUrl_sound (o : StorageOracle) (h : urlSound o)
    (k u : String) (hu : (makeAccessibleUrl o k).fst = some u) :
    isHttpUrl u = true := by
  unfold makeAccessibleUrl at hu
  by_cases h1 : k = ""
  · rw [if_pos h1] at hu
    cases hu
  · rw [if_neg h1] at hu
    by_cases h2 : isHttpUrl k = true
    · rw [if_pos (by simp [h2])] at hu
      dsimp only at hu
      injection hu with h3
      exact h3 ▸ h2
    · rw [if_neg (by simp [h2])] at hu
      dsimp only at hu
      by_cases h3 : optTruthy (o.pub k).dataPublicUrl
      · rw [if_pos h3] at hu
        exact (h k).1 u hu
      · rw [if_neg h3] at hu
        by_cases h4 : optTruthy (o.pub k).publicURL
        · rw [if_pos h4] at hu
          exact (h k).2.1 u hu
        · rw [if_neg h4] at hu
          cases hsig : o.signed k with
          | error e =>
            rw [hsig] at hu
            dsimp only at hu
            rcases pubFallback_some _ _ hu with h5 | h5
            · exact (h k).1 u h5
            · exact (h k).2.1 u h5
          | ok s0 =>
            rw [hsig] at hu
            dsimp only at hu
            by_cases h5 : optTruthy s0
            · rw [if_pos h5] at hu
              have h6 : s0 = some u := hu
              rw [h6] at hsig
              exact (h k).2.2 u hsig
            · rw [if_neg h5] at hu
              rcases pubFallback_some _ _ hu with h6 | h6
              · exact (h k).1 u h6
              · exact (h k).2.1 u h6

theorem variationImageUrl_sound (o : StorageOracle) (h : urlSound o)
    (k u : String) (hu : (variationImageUrl o k).fst = some u) :
    isHttpUrl u = true := by
  unfold variationImageUrl at hu
  dsimp only at hu
  by_cases h1 : optTruthy (o.pub k).dataPublicUrl
  · rw [if_pos h1] at hu
    exact (h k).1 u hu
  · rw [if_neg h1] at hu
    by_cases h2 : optTruthy (o.pub k).publicURL
    · rw [if_pos h2] at hu
      exact (h k).2.1 u hu
    · rw [if_neg h2] at hu
      cases hu

theorem filterTruthy_mem (l : List (Option String)) (x : String)
    (hx : x ∈ filterTruthy l) : some x ∈ l := by
  unfold filterTruthy at hx
  rw [List.mem_filterMap] at hx
  obtain ⟨ox, hox, hfx⟩ := hx
  cases ox with
  | none => cases hfx
  | some s =>
    dsimp only at hfx
    split at hfx
    · cases hfx
    · injection hfx with h2
      subst h2
      exact hox

theorem convertImages_mem (mk : String → Option String × List ExtCall)
    (keys : List String) (x : String)
    (hx : x ∈ (convertImages mk keys).fst) :
    ∃ k, k ∈ keys ∧ (mk k).fst = some x := by
  unfold convertImages at hx
  dsimp only at hx
  have h1 := filterTruthy_mem _ _ hx
  rw [List.map_map, List.mem_map] at h1
  obtain ⟨k, hk, hkx⟩ := h1
  exact ⟨k, hk, hkx⟩

theorem productConv_images_sound (o : StorageOracle) (h : urlSound o)
    (p : Product) :
    ∀ x ∈ (productWithAccessibleImages o p).fst.images, isHttpUrl x = true := by
  intro x hx
  unfold productWithAccessibleImages at hx
  dsimp only at hx
  by_cases hp : p.images.isEmpty
  · rw [if_pos (by simp [hp])] at hx
    cases hx
  · rw [if_neg (by simp [hp])] at hx
    obtain ⟨k, _, hk⟩ := convertImages_mem _ _ _ hx
    exact makeAccessibleUrl_sound o h k x hk

theorem productConv_image_eq (o : StorageOracle) (p : Product) :
    (productWithAccessibleImages o p).fst.image =
      (productWithAccessibleImages o p).fst.images.head? := rfl

theorem productConv_sound (o : StorageOracle) (h : urlSound o) (p : Product) :
    imagesAreUrls (productWithAccessibleImages o p).fst := by
  refine ⟨productConv_images_sound o h p, ?_⟩
  intro u hu
  rw [productConv_image_eq] at hu
  exact productConv_images_sound o h p u (head?_mem _ _ hu)

theorem variationConvP_images_sound (o : StorageOracle) (h : urlSound o)
    (v : Variation) :
    ∀ x ∈ (variationWithAccessibleImagesP o v).fst.images, isHttpUrl x = true := by
  intro x hx
  unfold variationWithAccessibleImagesP at hx
  dsimp only at hx
  by_cases hv : v.images.isEmpty
  · rw [if_pos (by simp [hv])] at hx
    cases hx
  · rw [if_neg (by simp [hv])] at hx
    obtain ⟨k, _, hk⟩ := convertImages_mem _ _ _ hx
    exact variationImageUrl_sound o h k x hk

theorem variationConvP_image_eq (o : StorageOracle) (v : Variation) :
    (variationWithAccessibleImagesP o v).fst.image =
      (variationWithAccessibleImagesP o v).fst.images.head? := rfl

theorem variationConvP_sound (o : StorageOracle) (h : urlSound o)
    (v : Variation) :
    vImagesAreUrls (variationWithAccessibleImagesP o v).fst := by
  refine ⟨variationConvP_images_sound o h v, ?_⟩
  intro u hu
  rw [variationConvP_image_eq] at hu
  exact variationConvP_images_sound o h v u (head?_mem _ _ hu)

theorem variationConvV_images_sound (o : StorageOracle) (h : urlSound o)
    (v : Variation) :
    ∀ x ∈ (variationWithAccessibleImagesV o v).fst.images, isHttpUrl x = true := by
  intro x hx
  unfold variationWithAccessibleImagesV at hx
  dsimp only at hx
  by_cases hv : v.images.isEmpty
  · rw [if_pos (by simp [hv])] at hx
    cases hx
  · rw [if_neg (by simp [hv])] at hx
    obtain ⟨k, _, hk⟩ := convertImages_mem _ _ _ hx
    exact variationImageUrl_sound o h k x hk

theorem variationConvV_image_eq (o : StorageOracle) (v : Variation) :
    (variationWithAccessibleImagesV o v).fst.image = v.image := rfl

theorem variationConvV_sound (o : StorageOracle) (h : urlSound o)
    (v : Variation) (hv : v.image = none) :
    vImagesAreUrls (variationWithAccessibleImagesV o v).fst := by
  refine ⟨variationConvV_images_sound o h v, ?_⟩
  intro u hu
  rw [variationConvV_image_eq, hv] at hu
  cases hu

theorem pubOracle_sound : urlSound pubOracle := by
  intro k
  refine ⟨?_, ?_, ?_⟩
  · intro u hu
    cases hu
    decide
  · intro u hu
    cases hu
  · intro u hu
    injection hu with h2
    cases h2

/-- C4 (confirmed): assuming the storage service only hands out http(s)
URLs (`urlSound`), every image reference a read endpoint returns — the
`images` array entries and the singular `image` field of every product and
variation in the response, including the nested variations of the
single-product response — is an http(s) URL, never a raw storage key.
The database-row hypotheses record that stored rows carry no `variations`
or singular `image` column of their own. -/
theorem C4_read_endpoints_return_urls (o : StorageOracle) (h : urlSound o) :
    (∀ user q selRes,
      ∀ p ∈ bodyProducts (productsList o user q selRes).fst.body,
        imagesAreUrls p) ∧
    (∀ user id selRes varRes,
      (∀ pr, selRes = Except.ok (some pr) → pr.variations = none) →
      ∀ p ∈ bodyProducts (productsGetId o user id selRes varRes).fst.body,
        imagesAreUrls p ∧
        (∀ vs, p.variations = some vs → ∀ v ∈ vs, vImagesAreUrls v)) ∧
    (∀ pid selRes,
      (∀ vs, selRes = Except.ok vs → ∀ v ∈ vs, v.image = none) →
      ∀ v ∈ bodyVariations (variationsGetByProduct o pid selRes).fst.body,
        vImagesAreUrls v) := by
  refine ⟨?_, ?_, ?_⟩
  · intro user q selRes p hp
    cases selRes with
    | error e => simp [productsList, bodyProducts] at hp
    | ok rows =>
      simp only [productsList, bodyProducts, List.map_map] at hp
      rw [List.mem_map] at hp
      obtain ⟨row, _, hrow⟩ := hp
      rw [← hrow]
      exact productConv_sound o h row
  · intro user id selRes varRes hdb p hp
    by_cases hid : id = ""
    · simp [productsGetId, hid, bodyProducts] at hp
    · cases selRes with
      | error e =>
        by_cases hnr : isNoRowsErr e = true <;>
          simp [productsGetId, hid, hnr, bodyProducts] at hp
      | ok odata =>
        cases odata with
        | none => simp [productsGetId, hid, bodyProducts] at hp
        | some data =>
          have hdata : p = (productWithVariationsConv o varRes data).fst := by
            simp [productsGetId, hid, bodyProducts] at hp
            exact hp
          subst hdata
          cases varRes with
          | error e2 =>
            constructor
            · exact productConv_sound o h data
            · intro vs hvs
              have hv : (productWithVariationsConv o (Except.error e2) data).fst.variations =
                  data.variations := rfl
              rw [hv, hdb data rfl] at hvs
              cases hvs
          | ok rawvs =>
            constructor
            · exact productConv_sound o h data
            · intro vs hvs
              have hv : (productWithVariationsConv o (Except.ok rawvs) data).fst.variations =
                  some (convertVariations o rawvs).fst := rfl
              rw [hv] at hvs
              injection hvs with h2
              subst h2
              intro v hv2
              unfold convertVariations at hv2
              dsimp only at hv2
              rw [List.map_map, List.mem_map] at hv2
              obtain ⟨v0, _, hv0⟩ := hv2
              rw [← hv0]
              exact variationConvP_sound o h v0
  · intro pid selRes hdb v hv
    by_cases hpid : pid = ""
    · simp [variationsGetByProduct, hpid, bodyVariations] at hv
    · cases selRes with
      | error e => simp [variationsGetByProduct, hpid, bodyVariations] at hv
      | ok vs =>
        simp only [variationsGetByProduct, bodyVariations, if_neg hpid,
          List.map_map] at hv
        rw [List.mem_map] at hv
        obtain ⟨v0, hv0mem, hv0⟩ := hv
        rw [← hv0]
        exact variationConvV_sound o h v0 (hdb vs rfl v0 hv0mem)

/-- C4 witness: `C4_read_endpoints_return_urls` applied to the concrete
URL-sound oracle and a one-product listing. -/
theorem C4_witness :
    imagesAreUrls (productWithAccessibleImages pubOracle sampleProductImgs).fst := by
  have h := (C4_read_endpoints_return_urls pubOracle pubOracle_sound).1 none {}
    (Except.ok [sampleProductImgs])
  exact h _ (by simp [productsList, bodyProducts])

theorem filterTruthy_ne (l : List (Option String)) (x : String)
    (hx : x ∈ filterTruthy l) : x ≠ "" := by
  unfold filterTruthy at hx
  rw [List.mem_filterMap] at hx
  obtain ⟨ox, _, hfx⟩ := hx
  cases ox with
  | none => cases hfx
  | some s =>
    dsimp only at hfx
    split at hfx
    · cases hfx
    · next hs =>
      injection hfx with h2
      subst h2
      exact hs

theorem convertImages_fst (mk : String → Option String × List ExtCall)
    (keys : List String) :
    (convertImages mk keys).fst =
      filterTruthy (keys.map (fun k => (mk k).fst)) := by
  unfold convertImages
  dsimp only
  rw [List.map_map]
  rfl

theorem productConv_images_spec (o : StorageOracle) (p : Product) :
    (productWithAccessibleImages o p).fst.images =
      filterTruthy (p.images.map (fun k => (makeAccessibleUrl o k).fst)) := by
  unfold productWithAccessibleImages
  dsimp only
  by_cases hp : p.images.isEmpty
  · rw [if_pos (by simp [hp])]
    have h2 : p.images = [] := by simpa using hp
    rw [h2]
    rfl
  · rw [if_neg (by simp [hp])]
    exact convertImages_fst _ _

theorem variationConvP_images_spec (o : StorageOracle) (v : Variation) :
    (variationWithAccessibleImagesP o v).fst.images =
      filterTruthy (v.images.map (fun k => (variationImageUrl o k).fst)) := by
  unfold variationWithAccessibleImagesP
  dsimp only
  by_cases hv : v.images.isEmpty
  · rw [if_pos (by simp [hv])]
    have h2 : v.images = [] := by simpa using hv
    rw [h2]
    rfl
  · rw [if_neg (by simp [hv])]
    exact convertImages_fst _ _

theorem variationConvV_images_spec (o : StorageOracle) (v : Variation) :
    (variationWithAccessibleImagesV o v).fst.images =
      filterTruthy (v.images.map (fun k => (variationImageUrl o k).fst)) := by
  unfold variationWithAccessibleImagesV
  dsimp only
  by_cases hv : v.images.isEmpty
  · rw [if_pos (by simp [hv])]
    have h2 : v.images = [] := by simpa using hv
    rw [h2]
    rfl
  · rw [if_neg (by simp [hv])]
    exact convertImages_fst _ _

/-- C5 (amended): in every conversion the response `images` array is
exactly the null-filter of the generated URLs — keys whose URL generation
returned `null` (or an empty string) are dropped, so no null entry
survives. The singular `image` field is the first surviving URL (or
`null`) in the product conversion and in the products-router variation
conversion, but the variations-router conversion sets no `image` field at
all: the stored row value passes through unchanged (see
`C5_counterexample`). -/
theorem C5_null_filter_and_first_image (o : StorageOracle) (p : Product)
    (v : Variation) :
    ((productWithAccessibleImages o p).fst.images =
        filterTruthy (p.images.map (fun k => (makeAccessibleUrl o k).fst)) ∧
      (∀ x ∈ (productWithAccessibleImages o p).fst.images, x ≠ "") ∧
      (productWithAccessibleImages o p).fst.image =
        (productWithAccessibleImages o p).fst.images.head?) ∧
    ((variationWithAccessibleImagesP o v).fst.images =
        filterTruthy (v.images.map (fun k => (variationImageUrl o k).fst)) ∧
      (variationWithAccessibleImagesP o v).fst.image =
        (variationWithAccessibleImagesP o v).fst.images.head?) ∧
    ((variationWithAccessibleImagesV o v).fst.images =
        filterTruthy (v.images.map (fun k => (variationImageUrl o k).fst)) ∧
      (variationWithAccessibleImagesV o v).fst.image = v.image) := by
  refine ⟨⟨productConv_images_spec o p, ?_, productConv_image_eq o p⟩,
    ⟨variationConvP_images_spec o v, variationConvP_image_eq o v⟩,
    ⟨variationConvV_images_spec o v, variationConvV_image_eq o v⟩⟩
  intro x hx
  rw [productConv_images_spec o p] at hx
  exact filterTruthy_ne _ _ hx

/-- C5 witness: `C5_null_filter_and_first_image` at a concrete oracle and
rows, projecting the pass-through of the variation image field. -/
theorem C5_witness :
    (variationWithAccessibleImagesV pubOracle sampleVariation).fst.image =
      sampleVariation.image :=
  (C5_null_filter_and_first_image pubOracle sampleProduct sampleVariation).2.2.2

/-- C5 counterexample: the variations read endpoint returns a variation
whose `images` array holds one surviving URL while its singular `image`
field is still `null` (the untouched row value) — not the first surviving
URL as the claim states. -/
theorem C5_counterexample :
    bodyVariations (variationsGetByProduct pubOracle "2"
        (Except.ok [sampleVariation])).fst.body =
      [{ sampleVariation with images := ["http://cdn.example/img"] }] ∧
    ({ sampleVariation with images := ["http://cdn.example/img"] } : Variation).image =
      none ∧
    (["http://cdn.example/img"] : List String).head? ≠ (none : Option String) := by
  exact ⟨by decide, by decide, by decide⟩

/-- C7 (confirmed): each listing filter contributes its predicate clause
only when its query parameter is present and non-empty (truthy), and the
sort switch emits exactly one ordering clause, `created_at` descending
whenever the parameter is absent or unrecognised. -/
theorem C7_filters_and_sort (q : ListQuery) :
    (searchClauses q ≠ [] → optTruthy q.search = true) ∧
    (brandClauses q ≠ [] → optTruthy q.brand = true) ∧
    (brandsClauses q ≠ [] → optTruthy q.brands = true) ∧
    (typesClauses q ≠ [] → optTruthy q.types = true) ∧
    (categoriesClauses q ≠ [] → optTruthy q.categories = true) ∧
    (sizesClauses q ≠ [] → optTruthy q.sizes = true) ∧
    (colorsClauses q ≠ [] → optTruthy q.colors = true) ∧
    (priceClauses q ≠ [] → optTruthy q.priceRange = true) ∧
    (discountClauses q ≠ [] → optTruthy q.discountRange = true) ∧
    (sortOrders q).length = 1 ∧
    (jsGetD q.sort "newest" ∉ recognizedSorts →
      sortOrders q = [OrderClause.order "created_at" false]) := by
  refine ⟨?_, ?_, ?_, ?_, ?_, ?_, ?_, ?_, ?_, ?_, ?_⟩
  · intro h
    cases hs : q.search with
    | none => simp [searchClauses, hs] at h
    | some s =>
      by_cases he : s = ""
      · simp [searchClauses, hs, he] at h
      · simp [optTruthy, he]
  · intro h
    cases hs : q.brand with
    | none => simp [brandClauses, hs] at h
    | some s =>
      by_cases he : s = ""
      · simp [brandClauses, hs, he] at h
      · simp [optTruthy, he]
  · intro h
    cases hs : q.brands with
    | none => simp [brandsClauses, hs] at h
    | some s =>
      by_cases he : s = ""
      · simp [brandsClauses, hs, he] at h
      · simp [optTruthy, he]
  · intro h
    cases hs : q.types with
    | none => simp [typesClauses, hs] at h
    | some s =>
      by_cases he : s = ""
      · simp [typesClauses, hs, he] at h
      · simp [optTruthy, he]
  · intro h
    cases hs : q.categories with
    | none => simp [categoriesClauses, hs] at h
    | some s =>
      by_cases he : s = ""
      · simp [categoriesClauses, hs, he] at h
      · simp [optTruthy, he]
  · intro h
    cases hs : q.sizes with
    | none => simp [sizesClauses, hs] at h
    | some s =>
      by_cases he : s = ""
      · simp [sizesClauses, hs, he] at h
      · simp [optTruthy, he]
  · intro h
    cases hs : q.colors with
    | none => simp [colorsClauses, hs] at h
    | some s =>
      by_cases he : s = ""
      · simp [colorsClauses, hs, he] at h
      · simp [optTruthy, he]
  · intro h
    cases hs : q.priceRange with
    | none => simp [priceClauses, hs] at h
    | some s =>
      by_cases he : s = ""
      · simp [priceClauses, hs, he] at h
      · simp [optTruthy, he]
  · intro h
    cases hs : q.discountRange with
    | none => simp [discountClauses, hs] at h
    | some s =>
      by_cases he : s = ""
      · simp [discountClauses, hs, he] at h
      · simp [optTruthy, he]
  · unfold sortOrders
    dsimp only
    split
    · rfl
    split
    · rfl
    split
    · rfl
    split
    · rfl
    · rfl
  · intro h
    simp [recognizedSorts] at h
    obtain ⟨h1, h2, h3, h4⟩ := h
    unfold sortOrders
    dsimp only
    rw [if_neg h1, if_neg h2, if_neg h3, if_neg h4]

/-- C7 witness: a query with a truthy search parameter triggers the
search conjunct, and the default sort conjunct fires for `newest`. -/
theorem C7_witness :
    optTruthy (some "tenis") = true ∧
    sortOrders { search := some "tenis" } = [OrderClause.order "created_at" false] := by
  constructor
  · exact (C7_filters_and_sort { search := some "tenis" }).1 (by decide)
  · exact (C7_filters_and_sort
      { search := some "tenis" }).2.2.2.2.2.2.2.2.2.2 (by decide)

theorem evalQuery_active (clauses : List Clause) (table : List Product)
    (hc : Clause.eqB "is_active" true ∈ clauses) :
    ∀ p ∈ evalQuery clauses table, p.is_active = true := by
  intro p hp
  unfold evalQuery at hp
  rw [List.mem_filter] at hp
  have h2 := hp.2
  rw [List.all_eq_true] at h2
  have h3 := h2 _ hc
  simp [satClause] at h3
  exact h3

/-- C8 (confirmed): for a requester without an admin token the listing
and single-product queries both carry the `is_active = true` predicate,
and under the standard evaluation of those predicates by the external
database no inactive product row is ever part of the result or of the
listing response built from it. -/
theorem C8_inactive_hidden_from_non_admin (user : Option UserPayload)
    (q : ListQuery) (id : String) (table : List Product)
    (h : isAdminOf user = false) :
    Clause.eqB "is_active" true ∈ buildListClauses (isAdminOf user) q ∧
    Clause.eqB "is_active" true ∈ buildSingleClauses id (isAdminOf user) ∧
    (∀ p ∈ evalQuery (buildListClauses (isAdminOf user) q) table,
      p.is_active = true) ∧
    (∀ p ∈ evalQuery (buildSingleClauses id (isAdminOf user)) table,
      p.is_active = true) ∧
    (∀ o, ∀ p2 ∈ bodyProducts (productsList o user q
        (Except.ok (evalQuery (buildListClauses (isAdminOf user) q) table))).fst.body,
      p2.is_active = true) := by
  have hmem1 : Clause.eqB "is_active" true ∈ buildListClauses (isAdminOf user) q := by
    rw [h]
    unfold buildListClauses activeClause
    simp
  have hmem2 : Clause.eqB "is_active" true ∈ buildSingleClauses id (isAdminOf user) := by
    rw [h]
    unfold buildSingleClauses activeClause
    simp
  refine ⟨hmem1, hmem2, evalQuery_active _ _ hmem1, evalQuery_active _ _ hmem2, ?_⟩
  intro o p2 hp2
  simp only [productsList, bodyProducts, List.map_map] at hp2
  rw [List.mem_map] at hp2
  obtain ⟨row, hrow, hr⟩ := hp2
  have h2 := evalQuery_active _ _ hmem1 row hrow
  rw [← hr]
  exact h2

/-- C8 witness: `C8_inactive_hidden_from_non_admin` applied to an
anonymous requester and a concrete two-row table. -/
theorem C8_witness :
    isAdminOf none = false ∧
    Clause.eqB "is_active" true ∈ buildListClauses (isAdminOf none) {} := by
  refine ⟨rfl, ?_⟩
  exact (C8_inactive_hidden_from_non_admin none {} "7"
    [sampleProduct, sampleInactive] rfl).1

theorem productsPutPrep_success (now : Nat) (id : String) (body : ProductBody)
    (files : List FileUpload) (up : String → Option DbErr) (row : Product)
    (hf : files ≠ []) (hup : ∀ k, up k = none) :
    productsPutPrep now id body files up (some row) =
      PutPrep.ready
        { mkProductChanges body with
          images := some (row.images ++ productUploadKeys id now files) }
        (files.enum.map (fun x => ExtCall.stUpload (productKey id now x.fst x.snd)) ++
          [ExtCall.db DbOp.select "products"]) := by
  unfold productsPutPrep
  rw [if_neg (by simp [hf])]
  rw [runUploads_success _ _ hup]
  dsimp only
  rw [if_neg (by simp [hf])]
  rfl

theorem variationsPutPrep_success (now : Nat) (id : String) (body : VariationBody)
    (files : List FileUpload) (up : String → Option DbErr) (vrow : Variation)
    (hf : files ≠ []) (hup : ∀ k, up k = none)
    (hpid : vrow.product_id ≠ "") :
    variationsPutPrep now id body files up (some vrow) (some vrow) =
      VPutPrep.ready
        { mkVariationChanges body with
          images := some (vrow.images ++ variationUploadKeys vrow.product_id now files) }
        ([ExtCall.db DbOp.select "product_variations"] ++
          files.enum.map
            (fun x => ExtCall.stUpload (variationKey vrow.product_id now x.fst x.snd)) ++
          [ExtCall.db DbOp.select "product_variations"]) := by
  unfold variationsPutPrep
  rw [if_neg (by simp [hf])]
  dsimp only
  rw [if_neg hpid]
  rw [runUploads_success _ _ hup]
  dsimp only
  rw [if_neg (by simp [hf])]
  rfl

/-- C9 (confirmed): when a PUT on a product or a variation uploads new
image files and every upload succeeds, the `images` column of the update payload
column is exactly the previously stored keys followed by the newly
generated keys in file order; applying the update keeps every existing
key (the old list stays an initial segment) and leaves every column whose
body field is absent unchanged. -/
theorem C9_put_appends_new_image_keys (now : Nat) (id : String)
    (pb : ProductBody) (vb : VariationBody) (files : List FileUpload)
    (up : String → Option DbErr) (row : Product) (vrow : Variation)
    (hf : files ≠ []) (hup : ∀ k, up k = none)
    (hpid : vrow.product_id ≠ "") :
    (∃ calls, productsPutPrep now id pb files up (some row) =
      PutPrep.ready
        { mkProductChanges pb with
          images := some (row.images ++ productUploadKeys id now files) } calls) ∧
    (∀ ch calls,
      productsPutPrep now id pb files up (some row) = PutPrep.ready ch calls →
      (applyProductChanges row ch).images =
        row.images ++ productUploadKeys id now files ∧
      (∃ t, (applyProductChanges row ch).images = row.images ++ t) ∧
      (pb.name = none → (applyProductChanges row ch).name = row.name) ∧
      (pb.description = none →
        (applyProductChanges row ch).description = row.description) ∧
      (pb.price = none → (applyProductChanges row ch).price = row.price) ∧
      (pb.stock = none → (applyProductChanges row ch).stock = row.stock) ∧
      (pb.type = none → (applyProductChanges row ch).type = row.type) ∧
      (pb.color = none → (applyProductChanges row ch).color = row.color) ∧
      (pb.brand = none → (applyProductChanges row ch).brand = row.brand) ∧
      (pb.sizes = SizesField.absent →
        (applyProductChanges row ch).sizes = row.sizes)) ∧
    (∃ calls, variationsPutPrep now id vb files up (some vrow) (some vrow) =
      VPutPrep.ready
        { mkVariationChanges vb with
          images := some (vrow.images ++ variationUploadKeys vrow.product_id now files) }
        calls) ∧
    (∀ ch calls,
      variationsPutPrep now id vb files up (some vrow) (some vrow) =
        VPutPrep.ready ch calls →
      (applyVariationChanges vrow ch).images =
        vrow.images ++ variationUploadKeys vrow.product_id now files ∧
      (∃ t, (applyVariationChanges vrow ch).images = vrow.images ++ t) ∧
      (vb.name = none → (applyVariationChanges vrow ch).name = vrow.name) ∧
      (vb.color = none → (applyVariationChanges vrow ch).color = vrow.color) ∧
      (vb.size = none → (applyVariationChanges vrow ch).size = vrow.size) ∧
      (vb.price = none → (applyVariationChanges vrow ch).price = vrow.price) ∧
      (vb.stock = none → (applyVariationChanges vrow ch).stock = vrow.stock) ∧
      (vb.is_active = none →
        (applyVariationChanges vrow ch).is_active = vrow.is_active)) := by
  have hps := productsPutPrep_success now id pb files up row hf hup
  have hvs := variationsPutPrep_success now id vb files up vrow hf hup hpid
  refine ⟨⟨_, hps⟩, ?_, ⟨_, hvs⟩, ?_⟩
  · intro ch calls hch
    rw [hps] at hch
    injection hch with h1 h2
    subst h1
    refine ⟨by simp [applyProductChanges], ⟨productUploadKeys id now files,
      by simp [applyProductChanges]⟩, ?_, ?_, ?_, ?_, ?_, ?_, ?_, ?_⟩
    · intro hn; simp [applyProductChanges, mkProductChanges, hn]
    · intro hn; simp [applyProductChanges, mkProductChanges, hn]
    · intro hn; simp [applyProductChanges, mkProductChanges, hn]
    · intro hn; simp [applyProductChanges, mkProductChanges, hn]
    · intro hn; simp [applyProductChanges, mkProductChanges, hn]
    · intro hn; simp [applyProductChanges, mkProductChanges, hn]
    · intro hn; simp [applyProductChanges, mkProductChanges, hn]
    · intro hn; simp [applyProductChanges, mkProductChanges, hn]
  · intro ch calls hch
    rw [hvs] at hch
    injection hch with h1 h2
    subst h1
    refine ⟨by simp [applyVariationChanges], ⟨variationUploadKeys vrow.product_id now files,
      by simp [applyVariationChanges]⟩, ?_, ?_, ?_, ?_, ?_, ?_⟩
    · intro hn; simp [applyVariationChanges, mkVariationChanges, hn]
    · intro hn; simp [applyVariationChanges, mkVariationChanges, hn]
    · intro hn; simp [applyVariationChanges, mkVariationChanges, hn]
    · intro hn; simp [applyVariationChanges, mkVariationChanges, hn]
    · intro hn; simp [applyVariationChanges, mkVariationChanges, hn]
    · intro hn; simp [applyVariationChanges, mkVariationChanges, hn]

/-- C9 witness: `C9_put_appends_new_image_keys` at a concrete product row
with two stored keys, one uploaded file and an all-success storage
oracle. -/
theorem C9_witness :
    (applyProductChanges sampleProductImgs
      { mkProductChanges {} with
        images := some (sampleProductImgs.images ++
          productUploadKeys "7" 1 [sampleFile]) }).images =
      sampleProductImgs.images ++ productUploadKeys "7" 1 [sampleFile] := by
  have h := (C9_put_appends_new_image_keys 1 "7" {} {} [sampleFile]
    (fun _ => none) sampleProductImgs sampleVariation (by decide)
    (fun _ => rfl) (by decide)).2.1
  exact (h _ _ (productsPutPrep_success 1 "7" {} [sampleFile] (fun _ => none)
    sampleProductImgs (by decide) (fun _ => rfl))).1

theorem lookupKV_append (obj extra : List (String × SettingVal)) (k2 : String) :
    lookupKV (obj ++ extra) k2 =
      ((lookupKV obj k2).or (lookupKV extra k2)) := by
  unfold lookupKV
  rw [List.find?_append]
  cases obj.find? (fun p => p.fst = k2) <;> simp

theorem lookupKV_single (k : String) (v : SettingVal) (k2 : String) :
    lookupKV [(k, v)] k2 = if k = k2 then some v else none := by
  unfold lookupKV
  by_cases h : k = k2
  · simp [List.find?, h]
  · simp [List.find?, h]

theorem withDefaultKV_self (obj : List (String × SettingVal)) (k : String)
    (v : SettingVal) : (lookupKV (withDefaultKV obj k v) k).isSome := by
  unfold withDefaultKV
  by_cases h : (lookupKV obj k).isSome
  · rw [if_pos h]
    exact h
  · rw [if_neg h]
    rw [lookupKV_append, lookupKV_single]
    cases hl : lookupKV obj k with
    | some x => rw [hl] at h; simp at h
    | none => simp

theorem withDefaultKV_absent (obj : List (String × SettingVal)) (k : String)
    (v : SettingVal) (h : lookupKV obj k = none) :
    lookupKV (withDefaultKV obj k v) k = some v := by
  unfold withDefaultKV
  rw [if_neg (by simp [h]), lookupKV_append, lookupKV_single, h]
  simp

theorem withDefaultKV_other (obj : List (String × SettingVal)) (k : String)
    (v : SettingVal) (k2 : String) (hne : k ≠ k2) :
    lookupKV (withDefaultKV obj k v) k2 = lookupKV obj k2 := by
  unfold withDefaultKV
  by_cases h : (lookupKV obj k).isSome
  · rw [if_pos h]
  · rw [if_neg h, lookupKV_append, lookupKV_single, if_neg hne]
    cases lookupKV obj k2 <;> simp

theorem settingsWithDefaults_spec (obj : List (String × SettingVal)) :
    (lookupKV (settingsWithDefaults obj) "site_background_type").isSome ∧
    (lookupKV (settingsWithDefaults obj) "site_background_value").isSome ∧
    (lookupKV (settingsWithDefaults obj) "site_background_video_url").isSome ∧
    (lookupKV obj "site_background_type" = none →
      lookupKV (settingsWithDefaults obj) "site_background_type" =
        some ⟨"color", "text"⟩) ∧
    (lookupKV obj "site_background_value" = none →
      lookupKV (settingsWithDefaults obj) "site_background_value" =
        some ⟨"#f5f5f5", "text"⟩) ∧
    (lookupKV obj "site_background_video_url" = none →
      lookupKV (settingsWithDefaults obj) "site_background_video_url" =
        some ⟨"", "text"⟩) := by
  unfold settingsWithDefaults
  refine ⟨?_, ?_, ?_, ?_, ?_, ?_⟩
  · rw [withDefaultKV_other _ _ _ _ (by decide),
      withDefaultKV_other _ _ _ _ (by decide)]
    exact withDefaultKV_self obj _ _
  · rw [withDefaultKV_other _ _ _ _ (by decide)]
    exact withDefaultKV_self _ _ _
  · exact withDefaultKV_self _ _ _
  · intro h
    rw [withDefaultKV_other _ _ _ _ (by decide),
      withDefaultKV_other _ _ _ _ (by decide)]
    exact withDefaultKV_absent obj _ _ h
  · intro h
    rw [withDefaultKV_other _ _ _ _ (by decide)]
    apply withDefaultKV_absent
    rw [withDefaultKV_other _ _ _ _ (by decide)]
    exact h
  · intro h
    apply withDefaultKV_absent
    rw [withDefaultKV_other _ _ _ _ (by decide),
      withDefaultKV_other _ _ _ _ (by decide)]
    exact h

/-- C10 (confirmed): on a successful select, `GET /api/site-settings`
answers 200 with a settings object that always carries the keys
`site_background_type`, `site_background_value` and
`site_background_video_url`, filled with `color`, `#f5f5f5` and the empty string
(all of type `text`) whenever the database rows do not provide them;
when the select fails because the table does not exist, it answers 200
with an empty settings object instead of an error. -/
theorem C10_settings_defaults (rows : List SettingRow) (e : DbErr) :
    ((settingsGet (Except.ok rows)).fst.status = 200 ∧
     (lookupKV (bodySettings (settingsGet (Except.ok rows)).fst.body)
        "site_background_type").isSome ∧
     (lookupKV (bodySettings (settingsGet (Except.ok rows)).fst.body)
        "site_background_value").isSome ∧
     (lookupKV (bodySettings (settingsGet (Except.ok rows)).fst.body)
        "site_background_video_url").isSome ∧
     (lookupKV (settingsToObj rows) "site_background_type" = none →
       lookupKV (bodySettings (settingsGet (Except.ok rows)).fst.body)
          "site_background_type" = some ⟨"color", "text"⟩) ∧
     (lookupKV (settingsToObj rows) "site_background_value" = none →
       lookupKV (bodySettings (settingsGet (Except.ok rows)).fst.body)
          "site_background_value" = some ⟨"#f5f5f5", "text"⟩) ∧
     (lookupKV (settingsToObj rows) "site_background_video_url" = none →
       lookupKV (bodySettings (settingsGet (Except.ok rows)).fst.body)
          "site_background_video_url" = some ⟨"", "text"⟩)) ∧
    (isTableMissingErr e = true →
      (settingsGet (Except.error e)).fst = ⟨200, Body.settingsB []⟩) := by
  have hs := settingsWithDefaults_spec (settingsToObj rows)
  constructor
  · exact ⟨rfl, hs.1, hs.2.1, hs.2.2.1, hs.2.2.2.1, hs.2.2.2.2.1, hs.2.2.2.2.2⟩
  · intro hte
    unfold settingsGet
    dsimp only
    rw [if_pos hte]

/-- C10 witness: `C10_settings_defaults` at an empty table and a concrete
missing-table error, showing the filled defaults and the 200 response. -/
theorem C10_witness :
    lookupKV (bodySettings (settingsGet (Except.ok [])).fst.body)
      "site_background_type" = some ⟨"color", "text"⟩ ∧
    (settingsGet (Except.error ⟨"relation does not exist", "42P01", ""⟩)).fst =
      ⟨200, Body.settingsB []⟩ := by
  constructor
  · exact (C10_settings_defaults [] ⟨"x", "", ""⟩).1.2.2.2.2.1 (by decide)
  · exact (C10_settings_defaults []
      ⟨"relation does not exist", "42P01", ""⟩).2 (by decide)

/-- C6 (amended): every error response of every handler carries either
one of the hardcoded Portuguese messages of the handlers
(`hardcodedMessages`) or the error message of the external service relayed
verbatim — whose language the code does not control (see
`C6_counterexample`). -/
theorem C6_error_messages :
    (∀ o now body files insertRes up updateRes m,
      (productsPost o now body files insertRes up updateRes).fst.errMsg = some m →
      m ∈ hardcodedMessages ∨ m ∈ exMsgs insertRes) ∧
    (∀ o user q selRes m,
      (productsList o user q selRes).fst.errMsg = some m →
      m ∈ hardcodedMessages ∨ m ∈ exMsgs selRes) ∧
    (∀ o user id selRes varRes m,
      (productsGetId o user id selRes varRes).fst.errMsg = some m →
      m ∈ hardcodedMessages ∨ m ∈ exMsgs selRes) ∧
    (∀ o now id body files up selImages updateRes m,
      (productsPut o now id body files up selImages updateRes).fst.errMsg = some m →
      m ∈ hardcodedMessages ∨ m ∈ exMsgs updateRes) ∧
    (∀ delRes m,
      (productsDelete delRes).fst.errMsg = some m →
      m ∈ hardcodedMessages ∨ m ∈ optErrMsgs delRes) ∧
    (∀ o now body files up insertRes m,
      (variationsPost o now body files up insertRes).fst.errMsg = some m →
      m ∈ hardcodedMessages ∨ m ∈ exMsgs insertRes) ∧
    (∀ o pid selRes m,
      (variationsGetByProduct o pid selRes).fst.errMsg = some m →
      m ∈ hardcodedMessages ∨ m ∈ exMsgs selRes) ∧
    (∀ o now id body files up selPid selImages updateRes m,
      (variationsPut o now id body files up selPid selImages updateRes).fst.errMsg =
        some m →
      m ∈ hardcodedMessages ∨ m ∈ exMsgs updateRes) ∧
    (∀ delRes m,
      (variationsDelete delRes).fst.errMsg = some m →
      m ∈ hardcodedMessages ∨ m ∈ optErrMsgs delRes) ∧
    (∀ selRes m,
      (settingsGet selRes).fst.errMsg = some m →
      m ∈ hardcodedMessages ∨ m ∈ exMsgs selRes) ∧
    (∀ key selRes m,
      (settingsGetKey key selRes).fst.errMsg = some m →
      m ∈ hardcodedMessages) ∧
    (∀ key value updateRes insertRes m,
      (settingsPut key value updateRes insertRes).fst.errMsg = some m →
      m ∈ hardcodedMessages ∨ m ∈ exMsgs updateRes ++ exMsgs insertRes) ∧
    (∀ o now key file selRes upErr updateRes m,
      (settingsUpload o now key file selRes upErr updateRes).fst.errMsg = some m →
      m ∈ hardcodedMessages ∨ m ∈ exMsgs updateRes) ∧
    (∀ o now file upErr updateRes insertRes m,
      (settingsVideoUpload o now file upErr updateRes insertRes).fst.errMsg = some m →
      m ∈ hardcodedMessages ∨ m ∈ exMsgs updateRes ++ exMsgs insertRes) ∧
    (∀ selRes insertErr m,
      (settingsInit selRes insertErr).fst.errMsg = some m →
      m ∈ hardcodedMessages) := by
  refine ⟨?_, ?_, ?_, ?_, ?_, ?_, ?_, ?_, ?_, ?_, ?_, ?_, ?_, ?_, ?_⟩
  · intro o now body files insertRes up updateRes m hm
    unfold productsPost at hm
    cases insertRes with
    | error e =>
      simp [Resp.errMsg] at hm
      subst hm
      exact Or.inr (by simp [exMsgs])
    | ok prod =>
      dsimp only at hm
      cases hru : runUploads (productKey prod.id now) up files with
      | failed e2 calls =>
        rw [hru] at hm
        simp [Resp.errMsg] at hm
        subst hm
        exact Or.inl (by decide)
      | done keys calls =>
        rw [hru] at hm
        simp [Resp.errMsg] at hm
  · intro o user q selRes m hm
    unfold productsList at hm
    cases selRes with
    | error e =>
      simp [Resp.errMsg] at hm
      subst hm
      exact Or.inr (by simp [exMsgs])
    | ok rows => simp [Resp.errMsg] at hm
  · intro o user id selRes varRes m hm
    unfold productsGetId at hm
    by_cases hid : id = ""
    · rw [if_pos hid] at hm
      simp [Resp.errMsg] at hm
      subst hm
      exact Or.inl (by decide)
    · rw [if_neg hid] at hm
      cases selRes with
      | error e =>
        dsimp only at hm
        by_cases hnr : isNoRowsErr e = true
        · rw [if_pos hnr] at hm
          simp [Resp.errMsg] at hm
          subst hm
          exact Or.inl (by decide)
        · rw [if_neg hnr] at hm
          simp [Resp.errMsg] at hm
          subst hm
          exact Or.inr (by simp [exMsgs])
      | ok odata =>
        cases odata with
        | none =>
          simp [Resp.errMsg] at hm
          subst hm
          exact Or.inl (by decide)
        | some data => simp [Resp.errMsg] at hm
  · intro o now id body files up selImages updateRes m hm
    unfold productsPut at hm
    cases hpr : productsPutPrep now id body files up selImages with
    | failed e calls =>
      rw [hpr] at hm
      simp [Resp.errMsg] at hm
      subst hm
      exact Or.inl (by decide)
    | ready changes calls =>
      rw [hpr] at hm
      cases updateRes with
      | error e =>
        simp [Resp.errMsg] at hm
        subst hm
        exact Or.inr (by simp [exMsgs])
      | ok data => simp [Resp.errMsg] at hm
  · intro delRes m hm
    cases delRes with
    | some e =>
      simp [productsDelete, Resp.errMsg] at hm
      subst hm
      exact Or.inr (by simp [optErrMsgs])
    | none => simp [productsDelete, Resp.errMsg] at hm
  · intro o now body files up insertRes m hm
    unfold variationsPost at hm
    split at hm
    · simp [Resp.errMsg] at hm
      subst hm
      exact Or.inl (by decide)
    · cases hru : runUploads (variationKey (body.product_id.getD "") now) up files with
      | failed e calls =>
        rw [hru] at hm
        simp [Resp.errMsg] at hm
        subst hm
        exact Or.inl (by decide)
      | done keys calls =>
        rw [hru] at hm
        cases insertRes with
        | error e =>
          simp [Resp.errMsg] at hm
          subst hm
          exact Or.inr (by simp [exMsgs])
        | ok v => simp [Resp.errMsg] at hm
  · intro o pid selRes m hm
    unfold variationsGetByProduct at hm
    by_cases hpid : pid = ""
    · rw [if_pos hpid] at hm
      simp [Resp.errMsg] at hm
      subst hm
      exact Or.inl (by decide)
    · rw [if_neg hpid] at hm
      cases selRes with
      | error e =>
        simp [Resp.errMsg] at hm
        subst hm
        exact Or.inr (by simp [exMsgs])
      | ok vs => simp [Resp.errMsg] at hm
  · intro o now id body files up selPid selImages updateRes m hm
    unfold variationsPut at hm
    cases hpr : variationsPutPrep now id body files up selPid selImages with
    | failed e calls =>
      rw [hpr] at hm
      simp [Resp.errMsg] at hm
      subst hm
      exact Or.inl (by decide)
    | ready changes calls =>
      rw [hpr] at hm
      cases updateRes with
      | error e =>
        simp [Resp.errMsg] at hm
        subst hm
        exact Or.inr (by simp [exMsgs])
      | ok v => simp [Resp.errMsg] at hm
  · intro delRes m hm
    cases delRes with
    | some e =>
      simp [variationsDelete, Resp.errMsg] at hm
      subst hm
      exact Or.inr (by simp [optErrMsgs])
    | none => simp [variationsDelete, Resp.errMsg] at hm
  · intro selRes m hm
    unfold settingsGet at hm
    cases selRes with
    | error e =>
      dsimp only at hm
      by_cases ht : isTableMissingErr e = true
      · rw [if_pos ht] at hm
        simp [Resp.errMsg] at hm
      · rw [if_neg ht] at hm
        simp [Resp.errMsg] at hm
        subst hm
        exact Or.inr (by simp [exMsgs])
    | ok rows => simp [Resp.errMsg] at hm
  · intro key selRes m hm
    unfold settingsGetKey at hm
    cases selRes with
    | error e =>
      simp [Resp.errMsg] at hm
      subst hm
      decide
    | ok os =>
      cases os with
      | none =>
        simp [Resp.errMsg] at hm
        subst hm
        decide
      | some s => simp [Resp.errMsg] at hm
  · intro key value updateRes insertRes m hm
    unfold settingsPut at hm
    by_cases hv : value.isNone = true
    · rw [if_pos hv] at hm
      simp [Resp.errMsg] at hm
      subst hm
      exact Or.inl (by decide)
    · rw [if_neg hv] at hm
      cases updateRes with
      | ok s => simp [Resp.errMsg] at hm
      | error e =>
        dsimp only at hm
        by_cases hc : e.code = "PGRST116"
        · rw [if_pos hc] at hm
          cases insertRes with
          | error ce =>
            simp [Resp.errMsg] at hm
            subst hm
            exact Or.inr (by simp [exMsgs])
          | ok ns => simp [Resp.errMsg] at hm
        · rw [if_neg hc] at hm
          simp [Resp.errMsg] at hm
          subst hm
          exact Or.inr (by simp [exMsgs])
  · intro o now key file selRes upErr updateRes m hm
    unfold settingsUpload at hm
    cases file with
    | none =>
      simp [Resp.errMsg] at hm
      subst hm
      exact Or.inl (by decide)
    | some f =>
      dsimp only at hm
      cases selRes with
      | none =>
        simp [Resp.errMsg] at hm
        subst hm
        exact Or.inl (by decide)
      | some s0 =>
        dsimp only at hm
        cases upErr with
        | some e =>
          dsimp only at hm
          by_cases hrls : (e.statusCode = "403" ||
              containsSub e.message "row-level security") = true
          · rw [if_pos hrls] at hm
            simp [Resp.errMsg] at hm
            subst hm
            exact Or.inl (by decide)
          · rw [if_neg hrls] at hm
            simp [Resp.errMsg] at hm
            subst hm
            exact Or.inl (by decide)
        | none =>
          dsimp only at hm
          cases updateRes with
          | error e =>
            simp [Resp.errMsg] at hm
            subst hm
            exact Or.inr (by simp [exMsgs])
          | ok s => simp [Resp.errMsg] at hm
  · intro o now file upErr updateRes insertRes m hm
    unfold settingsVideoUpload at hm
    cases file with
    | none =>
      simp [Resp.errMsg] at hm
      subst hm
      exact Or.inl (by decide)
    | some f =>
      dsimp only at hm
      by_cases hty : (!(videoRe (strToLower (extname f.originalname)) &&
          videoRe f.mimetype)) = true
      · rw [if_pos hty] at hm
        simp [Resp.errMsg] at hm
        subst hm
        exact Or.inl (by decide)
      · rw [if_neg hty] at hm
        cases upErr with
        | some e =>
          simp [Resp.errMsg] at hm
          subst hm
          exact Or.inl (by decide)
        | none =>
          dsimp only at hm
          cases updateRes with
          | ok s => simp [Resp.errMsg] at hm
          | error e =>
            dsimp only at hm
            by_cases hc : e.code = "PGRST116"
            · rw [if_pos hc] at hm
              cases insertRes with
              | error ce =>
                simp [Resp.errMsg] at hm
                subst hm
                exact Or.inr (by simp [exMsgs])
              | ok ns => simp [Resp.errMsg] at hm
            · rw [if_neg hc] at hm
              simp [Resp.errMsg] at hm
              subst hm
              exact Or.inr (by simp [exMsgs])
  · intro selRes insertErr m hm
    unfold settingsInit at hm
    dsimp only at hm
    split at hm
    · simp [Resp.errMsg] at hm
    · cases insertErr with
      | some e =>
        simp [Resp.errMsg] at hm
        subst hm
        decide
      | none => simp [Resp.errMsg] at hm

/-- C6 counterexample: when the insert of `POST /api/products` fails, the
handler answers 400 with the error message of the external database relayed
verbatim — here the English Postgres message `duplicate key value
violates unique constraint`, which is none of the hardcoded Portuguese
messages. -/
theorem C6_counterexample :
    (productsPost pubOracle 1 {} []
        (Except.error ⟨"duplicate key value violates unique constraint", "", ""⟩)
        (fun _ => none)
        (Except.error ⟨"duplicate key value violates unique constraint", "", ""⟩)).fst.errMsg =
      some "duplicate key value violates unique constraint" ∧
    "duplicate key value violates unique constraint" ∉ hardcodedMessages := by
  exact ⟨by decide, by decide⟩

/-- C6 witness: `C6_error_messages` applied to a concrete failing delete,
whose message is the relayed external one. -/
theorem C6_witness :
    "timeout" ∈ hardcodedMessages ∨ "timeout" ∈ optErrMsgs (some ⟨"timeout", "", ""⟩) :=
  (C6_error_messages).2.2.2.2.1 (some ⟨"timeout", "", ""⟩) "timeout" (by decide)

end Hypex
